import Mathlib

/-!
# Flyable: guided-projectile flight model (`src/flyable.cpp`)

A shallow embedding of `Flyable` and of the operations `Flyable::Flyable`,
`createPhysics`, `init`, `getClosestKart`, `update`, `placeModel` and
`explode`.

Conventions of the embedding.

* `float` is idealised as an element of a linearly ordered field `K`
  (exact arithmetic, no rounding, no NaN).  Library functions the file calls
  but does not define (`sqrt`, `atan2`, `sin`, `cos`, `acosf`, Bullet's
  `setEulerZYX`, plib's `sgSetCoord`) are parameters.
* A `Kart*` is a `KartPtr`: `none` is `NULL`, `some a` is the kart at
  address `a`.
* The object state of the two base classes (`Moveable`, `TerrainInfo`) and the
  two global registries the file touches (the rendering scene and the physics
  world, each projected onto this projectile) are fields of `Flyable`.
* Every call into a collaborator that is outside the file is appended to
  `trace`, together with the value `m_exploded` has at the moment of the
  call.
-/

namespace STK

/-! ## Vectors, matrices, transforms -/

/-- The type `btVector3` (and `sgVec3`): three scalars. -/
structure Vec3 (K : Type) where
  x : K
  y : K
  z : K

namespace Vec3
variable {K : Type} [LinearOrderedField K]

/-- The vector `btVector3(0,0,0)`. -/
def zero : Vec3 K := ⟨0, 0, 0⟩

/-- Componentwise difference, `a - b`. -/
def sub (a b : Vec3 K) : Vec3 K := ⟨a.x - b.x, a.y - b.y, a.z - b.z⟩

/-- Componentwise sum, `a + b`. -/
def add (a b : Vec3 K) : Vec3 K := ⟨a.x + b.x, a.y + b.y, a.z + b.z⟩

/-- Scalar product, `a.dot(b)`. -/
def dot (a b : Vec3 K) : K := a.x * b.x + a.y * b.y + a.z * b.z

/-- Squared length, `length2()`. -/
def length2 (a : Vec3 K) : K := a.dot a

/-- Length, `length()`: the square root of `length2()`. -/
def length (sqrt : K → K) (a : Vec3 K) : K := sqrt a.length2

end Vec3

/-- The type `btMatrix3x3`, stored by rows. -/
structure Mat3 (K : Type) where
  r0 : Vec3 K
  r1 : Vec3 K
  r2 : Vec3 K

namespace Mat3
variable {K : Type} [LinearOrderedField K]

/-- The identity matrix. -/
def identity : Mat3 K := ⟨⟨1, 0, 0⟩, ⟨0, 1, 0⟩, ⟨0, 0, 1⟩⟩

/-- Matrix times vector, `m * v`. -/
def mulVec (m : Mat3 K) (v : Vec3 K) : Vec3 K := ⟨m.r0.dot v, m.r1.dot v, m.r2.dot v⟩

/-- Column `0`, `1`, `2` of a matrix. -/
def col0 (m : Mat3 K) : Vec3 K := ⟨m.r0.x, m.r1.x, m.r2.x⟩
/-- Second column. -/
def col1 (m : Mat3 K) : Vec3 K := ⟨m.r0.y, m.r1.y, m.r2.y⟩
/-- Third column. -/
def col2 (m : Mat3 K) : Vec3 K := ⟨m.r0.z, m.r1.z, m.r2.z⟩

/-- Matrix product, `a * b`. -/
def mul (a b : Mat3 K) : Mat3 K :=
  ⟨⟨a.r0.dot b.col0, a.r0.dot b.col1, a.r0.dot b.col2⟩,
   ⟨a.r1.dot b.col0, a.r1.dot b.col1, a.r1.dot b.col2⟩,
   ⟨a.r2.dot b.col0, a.r2.dot b.col1, a.r2.dot b.col2⟩⟩

end Mat3

/-- The type `btTransform`: a rotation `basis` and a translation `origin`. -/
structure Transform (K : Type) where
  basis : Mat3 K
  origin : Vec3 K

namespace Transform
variable {K : Type} [LinearOrderedField K]

/-- Bullet's `t1 *= t2`: `origin += basis * t2.origin; basis *= t2.basis`. -/
def mul (t1 t2 : Transform K) : Transform K :=
  ⟨t1.basis.mul t2.basis, t1.origin.add (t1.basis.mulVec t2.origin)⟩

end Transform

/-- The type `sgCoord`: a position `xyz` and the angles `hpr`. -/
structure SgCoord (K : Type) where
  xyz : Vec3 K
  hpr : Vec3 K

/-! ## Karts and the world -/

/-- A `Kart*`: `none` is `NULL`, `some a` is the kart at address `a`. -/
abbrev KartPtr := Option Nat

/-- A kart of the world: its address and what `kart->getTrans` gives. -/
structure Kart (K : Type) where
  addr : Nat
  trans : Transform K

/-- The part of `world` the file reads: `getNumKarts()` is `karts.length` and
`getKart(i)` is the `i`-th entry. -/
structure World (K : Type) where
  karts : List (Kart K)

/-- The track under the world, as `TerrainInfo::update` reads it: the height
of terrain and the surface normal at a position, and the constant
`Track::NOHIT` that the height takes where there is no surface. -/
structure Track (K : Type) where
  NOHIT : K
  hot : Vec3 K → K
  normal : Vec3 K → Vec3 K

/-! ## External calls and the trace -/

/-- The three height hooks `too_low`, `too_high`, `right_height`. -/
inductive HeightHook
  | too_low
  | too_high
  | right_height
  deriving DecidableEq, Repr

/-- Calls that leave the file. -/
inductive Call (K : Type)
  | addKid (model : Nat)
  | scene_add
  | addBody
  | projectile_manager_explode
  | removeAllKids
  | scene_remove
  | removeBody
  | handleExplosion (kart : Nat) (pos : Vec3 K) (direct : Bool)
  | TerrainInfo_update (pos : Vec3 K)
  | hook (h : HeightHook) (dt : K)
  | Moveable_update (dt : K)

/-- One entry of the trace: the call, and the value of `m_exploded` an
observer reads while the call runs. -/
structure Obs (K : Type) where
  call : Call K
  exploded : Bool

/-! ## The projectile -/

/-- The rigid body `m_body` points to, as far as the file sets or reads it. -/
structure Body (K : Type) where
  worldTrans : Transform K
  mass : K
  shape : Nat
  gravity : Option (Vec3 K)
  linearVelocity : Vec3 K
  angularFactor : K
  noContactResponse : Bool

/-- State of a `Flyable`, with the base-class members it uses and the two
registries (`inScene`: the model transform is a child of `scene`;
`bodyInPhysics`: the body is registered with `world->getPhysics()`). -/
structure Flyable (K : Type) where
  m_owner : KartPtr
  m_speed : K
  m_extend : Vec3 K
  m_max_height : K
  m_min_height : K
  m_force_updown : K
  m_has_hit_something : Bool
  m_last_radar_beep : K
  m_exploded : Bool
  m_shape : Option Nat
  m_mass : K
  /- members of `Moveable` -/
  m_curr_pos : SgCoord K
  m_velocity : SgCoord K
  m_body : Option (Body K)
  modelKids : List Nat
  modelCoord : SgCoord K
  /- members of `TerrainInfo` -/
  m_HoT : K
  m_normal : Vec3 K
  /- registries and trace -/
  inScene : Bool
  bodyInPhysics : Bool
  trace : List (Obs K)

namespace Flyable
variable {K : Type} [LinearOrderedField K]

/-- Record a call that leaves the file, with the current `m_exploded`. -/
def emit (s : Flyable K) (c : Call K) : Flyable K :=
  { s with trace := s.trace ++ [⟨c, s.m_exploded⟩] }

/-- The method `Moveable::getTrans`: the world transform of the body; there
is none before `createPhysics` has made the body. -/
def getTrans (s : Flyable K) : Option (Transform K) :=
  s.m_body.map (fun b => b.worldTrans)

/-- The method `TerrainInfo::update(pos)`: query the track at `pos` and store
height of terrain and normal. -/
def TerrainInfo_update (tr : Track K) (pos : Vec3 K) (s : Flyable K) : Flyable K :=
  { s.emit (.TerrainInfo_update pos) with m_HoT := tr.hot pos, m_normal := tr.normal pos }

end Flyable

/-! ## Target acquisition -/

/-- The three out-parameters of `getClosestKart`. -/
structure Closest (K : Type) where
  minKart : KartPtr
  minDist : K
  minDelta : Vec3 K

namespace Flyable
variable {K : Type} [LinearOrderedField K]

/-- One iteration of the loop of `getClosestKart` (lines 167-180). -/
def getClosestKart_step (sqrt : K → K) (m_owner : KartPtr) (tProjectile : Transform K)
    (out : Closest K) (kart : Kart K) : Closest K :=
  if some kart.addr = m_owner then out
  else
    let delta := kart.trans.origin.sub tProjectile.origin
    let distance2 := delta.length2
    if distance2 < out.minDist then
      { minKart := some kart.addr, minDist := sqrt distance2, minDelta := delta }
    else out

/-- The method `Flyable::getClosestKart` (lines 160-182).  `out` holds the
values the caller has in the three out-parameters on entry. -/
def getClosestKart (sqrt : K → K) (w : World K) (s : Flyable K) (out : Closest K) :
    Option (Closest K) :=
  match s.getTrans with
  | none => none
  | some tProjectile =>
    some (w.karts.foldl (getClosestKart_step sqrt s.m_owner tProjectile)
      { out with minDist := 99999.9 })

end Flyable

/-! ## Per-type configuration -/

/-- The static per-type tables `m_st_*`, indexed by `CollectableType`. -/
structure Statics (K : Type) where
  m_st_speed : Nat → K
  m_st_model : Nat → Nat
  m_st_min_height : Nat → K
  m_st_max_height : Nat → K
  m_st_force_updown : Nat → K
  m_st_extend : Nat → Vec3 K

/-- The six out-parameters of `MinMax`: the bounding box of a model. -/
structure BBox (K : Type) where
  x_min : K
  x_max : K
  y_min : K
  y_max : K
  z_min : K
  z_max : K

namespace Flyable
variable {K : Type} [LinearOrderedField K]

/-- The call `lisp->get(name, val)`: `val` is overwritten when the source has
a value under `name` and is left alone otherwise.  The source is the lookup
`lisp`. -/
def lisp_get (lisp : String → Option K) (name : String) (val : K) : K :=
  match lisp name with
  | some v => v
  | none => val

/-- The function `Flyable::init` (lines 133-150).  `MinMax` is the helper of
`ssg_help`, giving the bounding box of a model. -/
def init (lisp : String → Option K) (MinMax : Nat → BBox K) (model : Nat) (type : Nat)
    (st : Statics K) : Statics K :=
  let st := { st with m_st_speed := Function.update st.m_st_speed type 25.0 }
  let st := { st with m_st_max_height := Function.update st.m_st_max_height type 1.0 }
  let st := { st with m_st_min_height := Function.update st.m_st_min_height type 3.0 }
  let st := { st with m_st_force_updown := Function.update st.m_st_force_updown type 15.0 }
  let v := lisp_get lisp "speed" (st.m_st_speed type)
  let st := { st with m_st_speed := Function.update st.m_st_speed type v }
  let v := lisp_get lisp "min-height" (st.m_st_min_height type)
  let st := { st with m_st_min_height := Function.update st.m_st_min_height type v }
  let v := lisp_get lisp "max-height" (st.m_st_max_height type)
  let st := { st with m_st_max_height := Function.update st.m_st_max_height type v }
  let v := lisp_get lisp "force-updown" (st.m_st_force_updown type)
  let st := { st with m_st_force_updown := Function.update st.m_st_force_updown type v }
  let b := MinMax model
  let e : Vec3 K := ⟨b.x_max - b.x_min, b.y_max - b.y_min, b.z_max - b.z_min⟩
  let st := { st with m_st_extend := Function.update st.m_st_extend type e }
  { st with m_st_model := Function.update st.m_st_model type model }

end Flyable

/-! ## Construction, physics, update, explosion -/

/-- Library functions and constants the file uses and does not define. -/
structure Ext (K : Type) where
  sqrt : K → K
  atan2 : K → K → K
  sin : K → K
  cos : K → K
  acosf : K → K
  NINETY_DEGREE_RAD : K
  /-- Bullet: `btMatrix3x3::setEulerZYX`. -/
  setEulerZYX : K → K → K → Mat3 K
  /-- The angles plib: `sgSetCoord` reads off a rotation. -/
  hprOf : Mat3 K → Vec3 K

namespace Flyable
variable {K : Type} [LinearOrderedField K]

/-- The constructor `Flyable::Flyable(kart, type)` (lines 40-60).  `s0` is the
object as the constructors of the base classes leave it. -/
def ctor (st : Statics K) (kart : KartPtr) (type : Nat) (s0 : Flyable K) : Flyable K :=
  let s := { s0 with
    m_speed := st.m_st_speed type
    m_extend := st.m_st_extend type
    m_max_height := st.m_st_max_height type
    m_min_height := st.m_st_min_height type
    m_force_updown := st.m_st_force_updown type
    m_owner := kart
    m_has_hit_something := false
    m_last_radar_beep := -1
    m_exploded := false
    m_shape := none
    m_mass := 1.0 }
  let kids := s.modelKids ++ [st.m_st_model type]
  let s := { s.emit (.addKid (st.m_st_model type)) with modelKids := kids }
  { s.emit .scene_add with inScene := true }

/-- The method `Flyable::placeModel` (lines 208-219). -/
def placeModel (ext : Ext K) (s : Flyable K) : Option (Flyable K) :=
  match s.m_body with
  | none => none
  | some b =>
    let t := b.worldTrans
    let s := { s with m_curr_pos := { xyz := t.origin, hpr := ext.hprOf t.basis } }
    let v := b.linearVelocity
    let s := { s with m_velocity := { s.m_velocity with xyz := ⟨v.x, v.y, v.z⟩ } }
    some { s with modelCoord := s.m_curr_pos }

/-- Modelled from the spec: `Moveable::createBody` is not in the file; it makes
the body at the given transform with the given mass and shape, at rest. -/
def createBody (mass : K) (trans : Transform K) (shape : Nat) (s : Flyable K) : Flyable K :=
  let b : Body K :=
    { worldTrans := trans, mass := mass, shape := shape, gravity := none,
      linearVelocity := Vec3.zero, angularFactor := 1, noContactResponse := false }
  { s with m_body := some b }

/-- The method `Flyable::createPhysics(offset, velocity)` (lines 62-130).
`ownerTrans` is what `m_owner->getTrans` gives and `shape` what the virtual
`createShape()` returns. -/
def createPhysics (ext : Ext K) (tr : Track K) (ownerTrans : Transform K) (shape : Nat)
    (offset velocity : Vec3 K) (s : Flyable K) : Option (Flyable K) :=
  match s.m_owner with
  | none => none
  | some _ =>
    let trans := ownerTrans
    let forwards : Vec3 K := ⟨0.0, 1.0, 0.0⟩
    let direction := trans.basis.mulVec forwards
    let heading := ext.atan2 (-direction.x) direction.y
    let s := s.TerrainInfo_update tr trans.origin
    let pitch : K :=
      if s.m_HoT ≠ tr.NOHIT then
        let normal := s.m_normal
        let X := -ext.sin heading
        let Y := ext.cos heading
        let pitch := (normal.x * X + normal.y * Y) / normal.length ext.sqrt
        ext.acosf pitch - ext.NINETY_DEGREE_RAD
      else 0.0
    let m := ext.setEulerZYX pitch 0.0 heading
    let trans : Transform K := { trans with basis := m }
    let offset_transform : Transform K := { basis := Mat3.identity, origin := offset }
    let trans := trans.mul offset_transform
    let s := { s with m_shape := some shape }
    let s := s.createBody s.m_mass trans shape
    let s := { s.emit .addBody with bodyInPhysics := true }
    let s := { s with m_body := s.m_body.map (fun (b : Body K) => { b with gravity := some ⟨0.0, 0.0, 0.0⟩ }) }
    let v := trans.basis.mulVec velocity
    let s :=
      if s.m_mass ≠ (0.0 : K) then
        let b1 := s.m_body.map (fun (b : Body K) => { b with linearVelocity := v, angularFactor := 0.0 })
        { s with m_body := b1 }
      else s
    let s := { s with m_body := s.m_body.map (fun (b : Body K) => { b with noContactResponse := true }) }
    s.placeModel ext

/-- The method `Flyable::explode(kart_hit)` (lines 222-247). -/
def explode (w : World K) (kart_hit : KartPtr) (s : Flyable K) : Flyable K :=
  if s.m_exploded then s
  else
    let s := { s with m_has_hit_something := true }
    let xyz : Vec3 K := { s.m_curr_pos.xyz with z := s.m_curr_pos.xyz.z + 1.2 }
    let s := { s with m_curr_pos := { s.m_curr_pos with xyz := xyz } }
    let s := s.emit .projectile_manager_explode
    let s := { s.emit .removeAllKids with modelKids := [] }
    let s := { s.emit .scene_remove with inScene := false }
    let s := { s.emit .removeBody with bodyInPhysics := false }
    let s := { s with m_exploded := true }
    w.karts.foldl
      (fun s kart =>
        s.emit (.handleExplosion kart.addr s.m_curr_pos.xyz (decide (some kart.addr = kart_hit))))
      s

/-- The method `Flyable::update(dt)` (lines 185-205). -/
def update (tr : Track K) (w : World K) (dt : K) (s : Flyable K) : Option (Flyable K) :=
  if s.m_exploded then some s
  else
    match s.m_body with
    | none => none
    | some b =>
      let trans := b.worldTrans
      let s := s.TerrainInfo_update tr trans.origin
      if s.m_HoT = tr.NOHIT then some (s.explode w none)
      else
        let hat := trans.origin.z - s.m_HoT
        let s :=
          if hat < s.m_min_height then s.emit (.hook .too_low dt)
          else if hat > s.m_max_height then s.emit (.hook .too_high dt)
          else s.emit (.hook .right_height dt)
        some (s.emit (.Moveable_update dt))

end Flyable

end STK

/-! ## Derived notions used in the statements -/

namespace STK
namespace Flyable
variable {K : Type} [LinearOrderedField K]

/-- The four teardown calls of `explode` (lines 230-237), each made while
`m_exploded` is still `false`. -/
def teardownCalls : List (Obs K) :=
  [⟨.projectile_manager_explode, false⟩, ⟨.removeAllKids, false⟩,
   ⟨.scene_remove, false⟩, ⟨.removeBody, false⟩]

/-- The position `explode` reports: `m_curr_pos.xyz` with `xyz[2]` raised by `1.2`. -/
def raisedPos (s : Flyable K) : Vec3 K :=
  { s.m_curr_pos.xyz with z := s.m_curr_pos.xyz.z + 1.2 }

/-- The fan-out of `explode` (lines 240-245): one `handleExplosion` per kart of
the world, in index order, each made while `m_exploded` is `true`. -/
def fanoutCalls (w : World K) (pos : Vec3 K) (kart_hit : KartPtr) : List (Obs K) :=
  w.karts.map (fun k => ⟨.handleExplosion k.addr pos (decide (some k.addr = kart_hit)), true⟩)

/-- The `handleExplosion` calls of a trace, in order: receiver, position and
direct-hit flag of each. -/
def handleExplosionCalls : List (Obs K) → List (Nat × Vec3 K × Bool)
  | [] => []
  | ⟨.handleExplosion kart pos direct, _⟩ :: rest =>
    (kart, pos, direct) :: handleExplosionCalls rest
  | _ :: rest => handleExplosionCalls rest

/-- The method `explode` when a `handleExplosion` callback may call `explode`
on the same projectile again: `react kart pos direct` lists the arguments of
the calls the callback of `kart` makes.  The body is that of `explode`, with
the nested calls placed after each `handleExplosion`; `fuel` bounds the
nesting depth of calls and `none` means it ran out. -/
def explodeReentrant (react : Nat → Vec3 K → Bool → List KartPtr) (w : World K) :
    Nat → KartPtr → Flyable K → Option (Flyable K)
  | 0, _, _ => none
  | fuel + 1, kart_hit, s =>
    if s.m_exploded then some s
    else
      let s := { s with m_has_hit_something := true }
      let xyz : Vec3 K := { s.m_curr_pos.xyz with z := s.m_curr_pos.xyz.z + 1.2 }
      let s := { s with m_curr_pos := { s.m_curr_pos with xyz := xyz } }
      let s := s.emit .projectile_manager_explode
      let s := { s.emit .removeAllKids with modelKids := [] }
      let s := { s.emit .scene_remove with inScene := false }
      let s := { s.emit .removeBody with bodyInPhysics := false }
      let s := { s with m_exploded := true }
      w.karts.foldlM
        (fun s kart =>
          let direct := decide (some kart.addr = kart_hit)
          let s := s.emit (.handleExplosion kart.addr s.m_curr_pos.xyz direct)
          (react kart.addr s.m_curr_pos.xyz direct).foldlM
            (fun s v => explodeReentrant react w fuel v s) s)
        s

/-- A sequence of `update` calls, each with its own track answer, world and
`dt`; `none` when one of them fails. -/
def updateAll : List (Track K × World K × K) → Flyable K → Option (Flyable K)
  | [], s => some s
  | (tr, w, dt) :: rest, s =>
    match update tr w dt s with
    | none => none
    | some s1 => updateAll rest s1

end Flyable

/-- A call on a projectile after its launch: `update(dt)` against a track and
a world, or `explode(kart_hit)` against a world. -/
inductive Op (K : Type)
  | update (tr : Track K) (w : World K) (dt : K)
  | explode (w : World K) (kart_hit : KartPtr)

namespace Flyable
variable {K : Type} [LinearOrderedField K]

/-- Run one call. -/
def step : Op K → Flyable K → Option (Flyable K)
  | .update tr w dt, s => update tr w dt s
  | .explode w v, s => some (explode w v s)

/-- Run a sequence of calls, in order; `none` when one of them fails. -/
def run : List (Op K) → Flyable K → Option (Flyable K)
  | [], s => some s
  | op :: rest, s =>
    match step op s with
    | none => none
    | some s1 => run rest s1

end Flyable

/-! ## Concrete inputs -/

section fixtures
variable {K : Type} [LinearOrderedField K]

/-- The transform with identity rotation and origin `p`. -/
def Transform.translation (p : Vec3 K) : Transform K := ⟨Mat3.identity, p⟩

/-- A projectile in flight: launched by `owner`, body at `pos`, height band
`lo`, `hi`, nothing in the trace. -/
def Flyable.inFlight (owner : KartPtr) (pos : Vec3 K) (lo hi : K) : Flyable K :=
  { m_owner := owner, m_speed := 25, m_extend := ⟨1, 1, 1⟩, m_max_height := hi,
    m_min_height := lo, m_force_updown := 15, m_has_hit_something := false,
    m_last_radar_beep := -1, m_exploded := false, m_shape := some 0, m_mass := 1,
    m_curr_pos := ⟨pos, Vec3.zero⟩, m_velocity := ⟨Vec3.zero, Vec3.zero⟩,
    m_body := some
      { worldTrans := Transform.translation pos, mass := 1, shape := 0,
        gravity := some Vec3.zero, linearVelocity := Vec3.zero, angularFactor := 0,
        noContactResponse := true },
    modelKids := [7], modelCoord := ⟨pos, Vec3.zero⟩, m_HoT := 0, m_normal := ⟨0, 0, 1⟩,
    inScene := true, bodyInPhysics := true, trace := [] }

/-- An object as the base-class constructors leave it: no body, a model
transform without children, nothing registered, nothing in the trace. -/
def Flyable.blank : Flyable K :=
  { m_owner := none, m_speed := 0, m_extend := Vec3.zero, m_max_height := 0,
    m_min_height := 0, m_force_updown := 0, m_has_hit_something := false,
    m_last_radar_beep := 0, m_exploded := false, m_shape := none, m_mass := 0,
    m_curr_pos := ⟨Vec3.zero, Vec3.zero⟩, m_velocity := ⟨Vec3.zero, Vec3.zero⟩,
    m_body := none, modelKids := [], modelCoord := ⟨Vec3.zero, Vec3.zero⟩, m_HoT := 0,
    m_normal := Vec3.zero, inScene := false, bodyInPhysics := false, trace := [] }

/-- A flat track at height `h` whose no-surface value is `nohit`. -/
def Track.flat (nohit h : K) : Track K :=
  { NOHIT := nohit, hot := fun _ => h, normal := fun _ => ⟨0, 0, 1⟩ }

/-- Library answers for a launch straight ahead over flat ground: heading `0`
and pitch `0`, hence the identity rotation. -/
def Ext.straight : Ext K :=
  { sqrt := fun x => x, atan2 := fun _ _ => 0, sin := fun _ => 0, cos := fun _ => 1,
    acosf := fun _ => 157 / 100, NINETY_DEGREE_RAD := 157 / 100,
    setEulerZYX := fun _ _ _ => Mat3.identity, hprOf := fun _ => Vec3.zero }

/-- Per-type tables holding the defaults of `init` for every type. -/
def Statics.defaults : Statics K :=
  { m_st_speed := fun _ => 25, m_st_model := fun _ => 7, m_st_min_height := fun _ => 3,
    m_st_max_height := fun _ => 1, m_st_force_updown := fun _ => 15,
    m_st_extend := fun _ => ⟨1, 1, 1⟩ }

/-- A world of karts at the given addresses and positions. -/
def World.ofList (l : List (Nat × Vec3 K)) : World K :=
  ⟨l.map (fun p => ⟨p.1, Transform.translation p.2⟩)⟩

end fixtures

end STK

/-! ## Launch orientation, program state and method calls -/

namespace STK

/-- The rotation about the vertical axis whose angle has cosine `c` and sine
`s`. -/
def Mat3.rotZ {K : Type} [LinearOrderedField K] (c s : K) : Mat3 K :=
  ⟨⟨c, -s, 0⟩, ⟨s, c, 0⟩, ⟨0, 0, 1⟩⟩

namespace Flyable
variable {K : Type} [LinearOrderedField K]

/-- The heading `createPhysics` computes (lines 73-75): `atan2` of the owner's
forward direction. -/
def launchHeading (ext : Ext K) (ownerTrans : Transform K) : K :=
  let forwards : Vec3 K := ⟨0.0, 1.0, 0.0⟩
  let direction := ownerTrans.basis.mulVec forwards
  ext.atan2 (-direction.x) direction.y

/-- The pitch `createPhysics` computes over a surface with the given normal
(lines 83-93). -/
def slopePitch (ext : Ext K) (normal : Vec3 K) (heading : K) : K :=
  let X := -ext.sin heading
  let Y := ext.cos heading
  let pitch := (normal.x * X + normal.y * Y) / normal.length ext.sqrt
  ext.acosf pitch - ext.NINETY_DEGREE_RAD

/-- The pitch `createPhysics` computes (lines 77-94): `0` where the track has
no surface under the owner, the slope pitch otherwise. -/
def launchPitch (ext : Ext K) (tr : Track K) (ownerTrans : Transform K) : K :=
  if tr.hot ownerTrans.origin ≠ tr.NOHIT then
    slopePitch ext (tr.normal ownerTrans.origin) (launchHeading ext ownerTrans)
  else 0.0

end Flyable

/-- The static tables together with a projectile that has been constructed:
the memory `init` and the constructor work on. -/
structure Program (K : Type) where
  statics : Statics K
  live : Flyable K

namespace Program
variable {K : Type} [LinearOrderedField K]

/-- The call `new Flyable(kart, type)` in a program: the new object reads the
tables. -/
def construct (kart : KartPtr) (type : Nat) (s0 : Flyable K) (st : Statics K) : Program K :=
  { statics := st, live := Flyable.ctor st kart type s0 }

/-- The call `Flyable::init(lisp, model, type)` in a program: lines 136-149
assign to the static tables only. -/
def init (lisp : String → Option K) (MinMax : Nat → BBox K) (model : Nat) (type : Nat)
    (p : Program K) : Program K :=
  { p with statics := Flyable.init lisp MinMax model type p.statics }

end Program

/-- A call of one of the methods of a projectile, with its arguments and what
it reads from outside. -/
inductive Method (K : Type)
  | createPhysics (ext : Ext K) (tr : Track K) (ownerTrans : Transform K) (shape : Nat)
      (offset velocity : Vec3 K)
  | update (tr : Track K) (w : World K) (dt : K)
  | explode (w : World K) (kart_hit : KartPtr)
  | placeModel (ext : Ext K)
  | getClosestKart (sqrt : K → K) (w : World K) (out : Closest K)

namespace Flyable
variable {K : Type} [LinearOrderedField K]

/-- Run one method call; `getClosestKart` is `const` and leaves the object as
it is. -/
def invoke : Method K → Flyable K → Option (Flyable K)
  | .createPhysics ext tr ownerTrans shape offset velocity, s =>
    createPhysics ext tr ownerTrans shape offset velocity s
  | .update tr w dt, s => update tr w dt s
  | .explode w v, s => some (explode w v s)
  | .placeModel ext, s => placeModel ext s
  | .getClosestKart sqrt w out, s => (getClosestKart sqrt w s out).map (fun _ => s)

/-- Run a sequence of method calls, in order; `none` when one of them fails. -/
def invokeAll : List (Method K) → Flyable K → Option (Flyable K)
  | [], s => some s
  | m :: rest, s =>
    match invoke m s with
    | none => none
    | some s1 => invokeAll rest s1

/-- Whether the scan of `getClosestKart` over `karts`, entered with `out`,
takes the branch of line 175 for some kart. -/
def selectsSome (sqrt : K → K) (m_owner : KartPtr) (tProjectile : Transform K) :
    Closest K → List (Kart K) → Bool
  | _, [] => false
  | out, kart :: rest =>
    (decide (some kart.addr ≠ m_owner)
      && decide ((kart.trans.origin.sub tProjectile.origin).length2 < out.minDist))
    || selectsSome sqrt m_owner tProjectile
        (getClosestKart_step sqrt m_owner tProjectile out kart) rest

end Flyable

end STK

/-! # Theorems -/

namespace STK
namespace Flyable

section traces
variable {K : Type}

/-! ## Lemmas on traces -/

theorem foldl_emit_handleExplosion (karts : List (Kart K)) (v : KartPtr) (s : Flyable K) :
    karts.foldl
      (fun s kart =>
        s.emit (.handleExplosion kart.addr s.m_curr_pos.xyz (decide (some kart.addr = v)))) s
    = { s with trace := s.trace ++ karts.map (fun k =>
          ⟨.handleExplosion k.addr s.m_curr_pos.xyz (decide (some k.addr = v)), s.m_exploded⟩) } := by
  induction karts generalizing s with
  | nil => simp
  | cons k ks ih =>
    rw [List.foldl_cons, ih]
    simp [emit, List.append_assoc]

theorem handleExplosionCalls_append (l1 l2 : List (Obs K)) :
    handleExplosionCalls (l1 ++ l2) = handleExplosionCalls l1 ++ handleExplosionCalls l2 := by
  induction l1 with
  | nil => simp [handleExplosionCalls]
  | cons o rest ih =>
    obtain ⟨c, e⟩ := o
    cases c <;> simp [handleExplosionCalls, ih]

theorem handleExplosionCalls_teardown :
    handleExplosionCalls (teardownCalls : List (Obs K)) = [] := by
  simp [teardownCalls, handleExplosionCalls]

theorem handleExplosionCalls_fanout (w : World K) (pos : Vec3 K) (v : KartPtr) :
    handleExplosionCalls (fanoutCalls w pos v)
      = w.karts.map (fun k => (k.addr, pos, decide (some k.addr = v))) := by
  unfold fanoutCalls
  induction w.karts with
  | nil => simp [handleExplosionCalls]
  | cons k ks ih => simp [handleExplosionCalls, ih]

end traces

variable {K : Type} [LinearOrderedField K]

/-! ## Lemmas on `explode` -/

theorem explode_of_exploded (w : World K) (v : KartPtr) (s : Flyable K)
    (h : s.m_exploded = true) : explode w v s = s := by
  simp [explode, h]

theorem explode_of_not_exploded (w : World K) (v : KartPtr) (s : Flyable K)
    (h : s.m_exploded = false) :
    explode w v s =
      { s with
        m_has_hit_something := true
        m_curr_pos := { s.m_curr_pos with xyz := s.raisedPos }
        modelKids := []
        inScene := false
        bodyInPhysics := false
        m_exploded := true
        trace := s.trace ++ (teardownCalls ++ fanoutCalls w s.raisedPos v) } := by
  unfold explode
  have hn : ¬ (s.m_exploded = true) := by simp [h]
  rw [if_neg hn, foldl_emit_handleExplosion]
  simp [emit, teardownCalls, fanoutCalls, raisedPos, List.append_assoc, h]

theorem explode_m_exploded (w : World K) (v : KartPtr) (s : Flyable K) :
    (explode w v s).m_exploded = true := by
  cases h : s.m_exploded
  · rw [explode_of_not_exploded w v s h]
  · rw [explode_of_exploded w v s h]; exact h

/-! ## C1: `getClosestKart` and the closest kart -/

/-- C1, evaluated where it fails.  The projectile is at the origin, the owner
is kart `0`, and the world holds, in this order, the owner, kart `1` at
`(5,0,0)` and kart `2` at `(3,0,0)`.  `getClosestKart` returns kart `1` with
`minDist = 5`, although kart `2` is at Euclidean distance `3`: in the second
comparison the squared distance `9` is tested against the distance `5`. -/
theorem getClosestKart_returns_farther_kart :
    getClosestKart Real.sqrt
        (World.ofList [(0, ⟨1, 1, 0⟩), (1, ⟨5, 0, 0⟩), (2, ⟨3, 0, 0⟩)])
        (Flyable.inFlight (some 0) ⟨0, 0, 0⟩ 3 5) ⟨none, 0, Vec3.zero⟩
      = some ⟨some 1, 5, ⟨5, 0, 0⟩⟩
    ∧ Real.sqrt (Vec3.length2 (Vec3.sub (⟨3, 0, 0⟩ : Vec3 ℝ) ⟨0, 0, 0⟩)) = 3 := by
  have h25 : Real.sqrt 25 = 5 := by
    rw [show (25 : ℝ) = 5 ^ 2 by norm_num]; exact Real.sqrt_sq (by norm_num)
  have h9 : Real.sqrt 9 = 3 := by
    rw [show (9 : ℝ) = 3 ^ 2 by norm_num]; exact Real.sqrt_sq (by norm_num)
  constructor
  · simp [getClosestKart, Flyable.getTrans, Flyable.inFlight, getClosestKart_step,
      World.ofList, Transform.translation, Vec3.sub, Vec3.length2, Vec3.dot, List.foldl]
    norm_num [h25]
  · norm_num [Vec3.sub, Vec3.length2, Vec3.dot, h9]

/-! ## C2: `explode` is idempotent -/

/-- C2.  On a projectile that has not exploded, `explode(a)` followed by
`explode(b)` leaves exactly the state of `explode(a)` alone (the trace of
external calls is part of the state).  The calls added to the trace are the
four teardown calls, once each (effects coordinator, `removeAllKids`,
`scene->remove`, `removeBody`), then one `handleExplosion` per kart of the
world of the first call; the recorded position is raised once by `1.2`, and
the body is no longer registered. -/
theorem explode_idempotent (w w2 : World K) (a b : KartPtr) (s : Flyable K)
    (h : s.m_exploded = false) :
    explode w2 b (explode w a s) = explode w a s
    ∧ (explode w2 b (explode w a s)).trace
        = s.trace ++
          ([⟨.projectile_manager_explode, false⟩, ⟨.removeAllKids, false⟩,
            ⟨.scene_remove, false⟩, ⟨.removeBody, false⟩]
           ++ w.karts.map (fun k =>
                ⟨.handleExplosion k.addr
                    ⟨s.m_curr_pos.xyz.x, s.m_curr_pos.xyz.y, s.m_curr_pos.xyz.z + 1.2⟩
                    (decide (some k.addr = a)), true⟩))
    ∧ (explode w2 b (explode w a s)).m_curr_pos.xyz
        = ⟨s.m_curr_pos.xyz.x, s.m_curr_pos.xyz.y, s.m_curr_pos.xyz.z + 1.2⟩
    ∧ (explode w2 b (explode w a s)).bodyInPhysics = false := by
  have h2 : explode w2 b (explode w a s) = explode w a s :=
    explode_of_exploded w2 b _ (explode_m_exploded w a s)
  rw [h2, explode_of_not_exploded w a s h]
  simp [teardownCalls, fanoutCalls, raisedPos]

/-- C2 at a concrete input: two karts, the first call names kart `1`, the
second kart `2`. -/
theorem explode_idempotent_witness :
    (Flyable.inFlight (some 1) (⟨0, 0, 2⟩ : Vec3 ℚ) 1 3).m_exploded = false
    ∧ explode (World.ofList [(1, ⟨0, 0, 0⟩), (2, ⟨4, 0, 0⟩)]) (some 2)
        (explode (World.ofList [(1, ⟨0, 0, 0⟩), (2, ⟨4, 0, 0⟩)]) (some 1)
          (Flyable.inFlight (some 1) (⟨0, 0, 2⟩ : Vec3 ℚ) 1 3))
      = explode (World.ofList [(1, ⟨0, 0, 0⟩), (2, ⟨4, 0, 0⟩)]) (some 1)
          (Flyable.inFlight (some 1) (⟨0, 0, 2⟩ : Vec3 ℚ) 1 3) :=
  ⟨rfl, (explode_idempotent _ _ (some 1) (some 2) _ rfl).1⟩

/-! ## C3: `update` after `explode` -/

/-- C3.  After `explode`, `update(dt)` returns at once for every `dt`, every
track answer and every world: the state, and with it the trace of external
calls (terrain query, height hooks, `Moveable::update`, explosion calls), is
unchanged. -/
theorem update_after_explode_noop (tr : Track K) (w w2 : World K) (v : KartPtr) (dt : K)
    (s : Flyable K) :
    update tr w2 dt (explode w v s) = some (explode w v s)
    ∧ (update tr w2 dt (explode w v s)).map (fun s1 => s1.trace)
        = some (explode w v s).trace := by
  have h : update tr w2 dt (explode w v s) = some (explode w v s) := by
    unfold update
    rw [if_pos (explode_m_exploded w v s)]
  rw [h]
  exact ⟨rfl, rfl⟩

end Flyable
end STK

namespace STK
namespace Flyable
variable {K : Type} [LinearOrderedField K]

/-! ## C4: height classification -/

/-- C4.  For a projectile that has not exploded, whose body is over a surface
(the track answer differs from `NOHIT`), with `m_min_height ≤ m_max_height`
and `hat = origin.z - HoT`: `update` succeeds and adds to the trace exactly
the terrain query, one height hook `h` and `Moveable::update`, where `h` is
`too_low` iff `hat < m_min_height`, `too_high` iff `hat > m_max_height` and
`right_height` iff `m_min_height ≤ hat ≤ m_max_height`. -/
theorem update_height_partition (tr : Track K) (w : World K) (dt : K) (s : Flyable K)
    (b : Body K) (hexp : s.m_exploded = false) (hb : s.m_body = some b)
    (hsurf : tr.hot b.worldTrans.origin ≠ tr.NOHIT)
    (hcfg : s.m_min_height ≤ s.m_max_height) :
    ∃ h : HeightHook,
      (update tr w dt s).map (fun s1 => s1.trace)
        = some (s.trace ++
            [⟨.TerrainInfo_update b.worldTrans.origin, false⟩, ⟨.hook h dt, false⟩,
             ⟨.Moveable_update dt, false⟩])
      ∧ (h = .too_low ↔ b.worldTrans.origin.z - tr.hot b.worldTrans.origin < s.m_min_height)
      ∧ (h = .too_high ↔ b.worldTrans.origin.z - tr.hot b.worldTrans.origin > s.m_max_height)
      ∧ (h = .right_height ↔
          s.m_min_height ≤ b.worldTrans.origin.z - tr.hot b.worldTrans.origin
          ∧ b.worldTrans.origin.z - tr.hot b.worldTrans.origin ≤ s.m_max_height) := by
  have hn : ¬ (s.m_exploded = true) := by simp [hexp]
  by_cases hlow : b.worldTrans.origin.z - tr.hot b.worldTrans.origin < s.m_min_height
  · refine ⟨.too_low, ?_, ?_, ?_, ?_⟩
    · simp [update, hexp, hb, TerrainInfo_update, emit, hsurf, hlow]
    · simp [hlow]
    · simp only [reduceCtorEq, false_iff, gt_iff_lt, not_lt]
      exact le_trans (le_of_lt hlow) hcfg
    · simp only [reduceCtorEq, false_iff, not_and, not_le]
      intro h1
      exact absurd hlow (not_lt.mpr h1)
  · by_cases hhigh : b.worldTrans.origin.z - tr.hot b.worldTrans.origin > s.m_max_height
    · refine ⟨.too_high, ?_, ?_, ?_, ?_⟩
      · simp [update, hexp, hb, TerrainInfo_update, emit, hsurf, hlow, hhigh]
      · simp only [reduceCtorEq, false_iff]; exact hlow
      · simp [hhigh]
      · simp only [reduceCtorEq, false_iff, not_and, not_le]
        intro _; exact hhigh
    · refine ⟨.right_height, ?_, ?_, ?_, ?_⟩
      · simp [update, hexp, hb, TerrainInfo_update, emit, hsurf, hlow, hhigh]
      · simp only [reduceCtorEq, false_iff]; exact hlow
      · simp only [reduceCtorEq, false_iff]; exact hhigh
      · simp only [true_iff]
        exact ⟨not_lt.mp hlow, not_lt.mp hhigh⟩

/-- C4 at the input of the scenario: terrain height `0`, body at world
`Z = 0.5`, `m_min_height = 3` (and `m_max_height = 5`); the hook is `too_low`. -/
theorem update_height_partition_witness :
    (∃ h : HeightHook,
      (update (Track.flat (-1000) 0) (World.ofList []) (1 / 60)
          (Flyable.inFlight (some 1) (⟨0, 0, 1 / 2⟩ : Vec3 ℚ) 3 5)).map (fun s1 => s1.trace)
        = some ([] ++
            [⟨.TerrainInfo_update ⟨0, 0, 1 / 2⟩, false⟩, ⟨.hook h (1 / 60), false⟩,
             ⟨.Moveable_update (1 / 60), false⟩])
      ∧ (h = .too_low ↔ (1 / 2 : ℚ) - 0 < 3)
      ∧ (h = .too_high ↔ (1 / 2 : ℚ) - 0 > 5)
      ∧ (h = .right_height ↔ (3 : ℚ) ≤ 1 / 2 - 0 ∧ (1 / 2 : ℚ) - 0 ≤ 5))
    ∧ (1 / 2 : ℚ) - 0 < 3 :=
  ⟨update_height_partition (Track.flat (-1000) 0) (World.ofList []) (1 / 60)
      (Flyable.inFlight (some 1) (⟨0, 0, 1 / 2⟩ : Vec3 ℚ) 3 5)
      { worldTrans := Transform.translation ⟨0, 0, 1 / 2⟩, mass := 1, shape := 0,
        gravity := some Vec3.zero, linearVelocity := Vec3.zero, angularFactor := 0,
        noContactResponse := true }
      rfl rfl (by norm_num [Track.flat]) (by norm_num [Flyable.inFlight]),
   by norm_num⟩

end Flyable
end STK

namespace STK
namespace Flyable
variable {K : Type} [LinearOrderedField K]

/-! ## C5: no surface under the projectile -/

theorem update_of_exploded (tr : Track K) (w : World K) (dt : K) (s : Flyable K)
    (h : s.m_exploded = true) : update tr w dt s = some s := by
  unfold update
  rw [if_pos h]

theorem updateAll_of_exploded (later : List (Track K × World K × K)) (s : Flyable K)
    (h : s.m_exploded = true) : updateAll later s = some s := by
  induction later with
  | nil => rfl
  | cons a rest ih =>
    obtain ⟨tr, w, dt⟩ := a
    simp [updateAll, update_of_exploded tr w dt s h, ih]

/-- C5.  For a projectile that has not exploded and whose track answer at the
body's position is `NOHIT`: `update` is `explode(NULL)` run after the terrain
query; the calls added to the trace are the terrain query, the four teardown
calls and one `handleExplosion` per kart, each with `isDirectHit = false`;
no height hook and no `Moveable::update` is among them; and any further
sequence of `update` calls, whatever tracks and worlds they see, leaves that
state and trace as they are, so the explosion protocol has run once. -/
theorem update_no_surface_explodes_once (tr : Track K) (w : World K) (dt : K)
    (s : Flyable K) (b : Body K) (hexp : s.m_exploded = false) (hb : s.m_body = some b)
    (hno : tr.hot b.worldTrans.origin = tr.NOHIT) :
    update tr w dt s = some (explode w none (TerrainInfo_update tr b.worldTrans.origin s))
    ∧ (update tr w dt s).map (fun s1 => s1.trace)
        = some (s.trace ++
            ([⟨.TerrainInfo_update b.worldTrans.origin, false⟩,
              ⟨.projectile_manager_explode, false⟩, ⟨.removeAllKids, false⟩,
              ⟨.scene_remove, false⟩, ⟨.removeBody, false⟩]
             ++ w.karts.map (fun k =>
                  ⟨.handleExplosion k.addr
                      ⟨s.m_curr_pos.xyz.x, s.m_curr_pos.xyz.y, s.m_curr_pos.xyz.z + 1.2⟩
                      false, true⟩)))
    ∧ ∀ later : List (Track K × World K × K),
        (update tr w dt s).bind (updateAll later) = update tr w dt s := by
  have hn : ¬ (s.m_exploded = true) := by simp [hexp]
  have hu : update tr w dt s
      = some (explode w none (TerrainInfo_update tr b.worldTrans.origin s)) := by
    simp [update, hexp, hb, TerrainInfo_update, emit, hno]
  have he : (TerrainInfo_update tr b.worldTrans.origin s).m_exploded = false := by
    simp [TerrainInfo_update, emit, hexp]
  refine ⟨hu, ?_, ?_⟩
  · rw [hu, explode_of_not_exploded w none _ he]
    simp [TerrainInfo_update, emit, teardownCalls, fanoutCalls, raisedPos, hexp]
  · intro later
    rw [hu]
    exact updateAll_of_exploded later _ (explode_m_exploded w none _)

/-- C5 at a concrete input: a track with no surface anywhere, two karts, and
two further updates over a flat track. -/
theorem update_no_surface_explodes_once_witness :
    (Flyable.inFlight (some 1) (⟨0, 0, 2⟩ : Vec3 ℚ) 1 3).m_exploded = false
    ∧ (update (Track.flat (-1000) (-1000)) (World.ofList [(1, ⟨0, 0, 0⟩), (2, ⟨4, 0, 0⟩)])
          (1 / 60) (Flyable.inFlight (some 1) (⟨0, 0, 2⟩ : Vec3 ℚ) 1 3)).bind
        (updateAll
          [(Track.flat (-1000) 0, World.ofList [(1, ⟨0, 0, 0⟩)], 1 / 60),
           (Track.flat (-1000) 1, World.ofList [(1, ⟨0, 0, 0⟩)], 1 / 60)])
      = update (Track.flat (-1000) (-1000)) (World.ofList [(1, ⟨0, 0, 0⟩), (2, ⟨4, 0, 0⟩)])
          (1 / 60) (Flyable.inFlight (some 1) (⟨0, 0, 2⟩ : Vec3 ℚ) 1 3) :=
  ⟨rfl,
   (update_no_surface_explodes_once (Track.flat (-1000) (-1000))
      (World.ofList [(1, ⟨0, 0, 0⟩), (2, ⟨4, 0, 0⟩)]) (1 / 60)
      (Flyable.inFlight (some 1) (⟨0, 0, 2⟩ : Vec3 ℚ) 1 3)
      { worldTrans := Transform.translation ⟨0, 0, 2⟩, mass := 1, shape := 0,
        gravity := some Vec3.zero, linearVelocity := Vec3.zero, angularFactor := 0,
        noContactResponse := true }
      rfl rfl rfl).2.2 _⟩

/-! ## C6: the fan-out of `explode` -/

/-- C6.  When `explode(kart_hit)` runs on a projectile that has not exploded,
the `handleExplosion` calls it adds are one per kart of the world (the owner is
not skipped), in index order, all at the recorded position with its
vertical component raised by `1.2`, and the flag of a kart's call is whether
that kart is `kart_hit`; with `kart_hit = NULL` every flag is `false`. -/
theorem explode_notifies_every_kart (w : World K) (kart_hit : KartPtr) (s : Flyable K)
    (h : s.m_exploded = false) :
    handleExplosionCalls (explode w kart_hit s).trace
      = handleExplosionCalls s.trace ++
          w.karts.map (fun k =>
            (k.addr, ⟨s.m_curr_pos.xyz.x, s.m_curr_pos.xyz.y, s.m_curr_pos.xyz.z + 1.2⟩,
             decide (some k.addr = kart_hit)))
    ∧ handleExplosionCalls (explode w none s).trace
      = handleExplosionCalls s.trace ++
          w.karts.map (fun k =>
            (k.addr, ⟨s.m_curr_pos.xyz.x, s.m_curr_pos.xyz.y, s.m_curr_pos.xyz.z + 1.2⟩,
             false)) := by
  constructor
  · rw [explode_of_not_exploded w kart_hit s h]
    simp [handleExplosionCalls_append, handleExplosionCalls_teardown,
      handleExplosionCalls_fanout, raisedPos]
  · rw [explode_of_not_exploded w none s h]
    simp [handleExplosionCalls_append, handleExplosionCalls_teardown,
      handleExplosionCalls_fanout, raisedPos]

/-- C6 at a concrete input: owner `1` and kart `2` in the world, kart `2` is
hit; the owner is notified first, without the flag, then kart `2` with it. -/
theorem explode_notifies_every_kart_witness :
    (Flyable.inFlight (some 1) (⟨0, 0, 2⟩ : Vec3 ℚ) 1 3).m_exploded = false
    ∧ handleExplosionCalls
        (explode (World.ofList [(1, ⟨0, 0, 0⟩), (2, ⟨4, 0, 0⟩)]) (some 2)
          (Flyable.inFlight (some 1) (⟨0, 0, 2⟩ : Vec3 ℚ) 1 3)).trace
      = handleExplosionCalls ([] : List (Obs ℚ)) ++
          (World.ofList [(1, (⟨0, 0, 0⟩ : Vec3 ℚ)), (2, ⟨4, 0, 0⟩)]).karts.map (fun k =>
            (k.addr, ⟨0, 0, 2 + 1.2⟩, decide (some k.addr = some 2))) :=
  ⟨rfl, (explode_notifies_every_kart _ (some 2) _ rfl).1⟩

end Flyable
end STK

namespace STK
namespace Flyable
variable {K : Type} [LinearOrderedField K]

/-! ## C7: order of the flag and re-entrant calls -/

theorem explodeReentrant_of_exploded (react : Nat → Vec3 K → Bool → List KartPtr)
    (w : World K) (fuel : Nat) (v : KartPtr) (s : Flyable K) (h : s.m_exploded = true) :
    explodeReentrant react w (fuel + 1) v s = some s := by
  unfold explodeReentrant
  rw [if_pos h]

theorem nested_calls_of_exploded (react : Nat → Vec3 K → Bool → List KartPtr)
    (w : World K) (fuel : Nat) (victims : List KartPtr) (s : Flyable K)
    (h : s.m_exploded = true) :
    victims.foldlM (fun s v => explodeReentrant react w (fuel + 1) v s) s = some s := by
  induction victims with
  | nil => rfl
  | cons v rest ih =>
    rw [List.foldlM_cons, explodeReentrant_of_exploded react w fuel v s h]
    exact ih

theorem fanout_with_nested_calls (react : Nat → Vec3 K → Bool → List KartPtr)
    (w : World K) (fuel : Nat) (kart_hit : KartPtr) (karts : List (Kart K)) (s : Flyable K)
    (h : s.m_exploded = true) :
    karts.foldlM
        (fun s kart =>
          let direct := decide (some kart.addr = kart_hit)
          let s := s.emit (.handleExplosion kart.addr s.m_curr_pos.xyz direct)
          (react kart.addr s.m_curr_pos.xyz direct).foldlM
            (fun s v => explodeReentrant react w (fuel + 1) v s) s)
        s
    = some (karts.foldl
        (fun s kart =>
          s.emit (.handleExplosion kart.addr s.m_curr_pos.xyz (decide (some kart.addr = kart_hit))))
        s) := by
  induction karts generalizing s with
  | nil => rfl
  | cons k ks ih =>
    rw [List.foldlM_cons, List.foldl_cons]
    have hk : (s.emit (.handleExplosion k.addr s.m_curr_pos.xyz
        (decide (some k.addr = kart_hit)))).m_exploded = true := by
      simpa [emit] using h
    simp only []
    rw [nested_calls_of_exploded react w fuel _ _ hk]
    exact ih _ hk

theorem explodeReentrant_eq_explode (react : Nat → Vec3 K → Bool → List KartPtr)
    (w : World K) (n : Nat) (v : KartPtr) (s : Flyable K) :
    explodeReentrant react w (n + 2) v s = some (explode w v s) := by
  cases h : s.m_exploded
  · unfold explodeReentrant explode
    have hn : ¬ (s.m_exploded = true) := by simp [h]
    rw [if_neg hn, if_neg hn]
    exact fanout_with_nested_calls react w n v w.karts _ rfl
  · rw [explodeReentrant_of_exploded react w (n + 1) v s h, explode_of_exploded w v s h]

/-- C7.  In `explode` on a projectile that has not exploded, the calls to the
effects coordinator, `removeAllKids`, `scene->remove` and `removeBody` are made
while `m_exploded` is `false`, and every `handleExplosion` call, the first
included, is made while it is `true`.  So when the `handleExplosion` callbacks
call `explode` again (any calls, any arguments, `react`), the result with
fuel for two levels of calls or more is that of `explode` without callbacks:
the nested calls change nothing and the fan-out is delivered once. -/
theorem explode_flag_order_reentrant_safe (react : Nat → Vec3 K → Bool → List KartPtr)
    (w : World K) (n : Nat) (v : KartPtr) (s : Flyable K) (h : s.m_exploded = false) :
    (explode w v s).trace
      = s.trace ++
          ([⟨.projectile_manager_explode, false⟩, ⟨.removeAllKids, false⟩,
            ⟨.scene_remove, false⟩, ⟨.removeBody, false⟩]
           ++ w.karts.map (fun k =>
                ⟨.handleExplosion k.addr
                    ⟨s.m_curr_pos.xyz.x, s.m_curr_pos.xyz.y, s.m_curr_pos.xyz.z + 1.2⟩
                    (decide (some k.addr = v)), true⟩))
    ∧ explodeReentrant react w (n + 2) v s = some (explode w v s) := by
  refine ⟨?_, explodeReentrant_eq_explode react w n v s⟩
  rw [explode_of_not_exploded w v s h]
  simp [teardownCalls, fanoutCalls, raisedPos]

/-- C7 at a concrete input: every callback calls `explode(NULL)` and then
`explode` naming the receiver. -/
theorem explode_flag_order_reentrant_safe_witness :
    (Flyable.inFlight (some 1) (⟨0, 0, 2⟩ : Vec3 ℚ) 1 3).m_exploded = false
    ∧ explodeReentrant (fun kart _ _ => [none, some kart])
        (World.ofList [(1, ⟨0, 0, 0⟩), (2, ⟨4, 0, 0⟩)]) 2 (some 2)
        (Flyable.inFlight (some 1) (⟨0, 0, 2⟩ : Vec3 ℚ) 1 3)
      = some (explode (World.ofList [(1, ⟨0, 0, 0⟩), (2, ⟨4, 0, 0⟩)]) (some 2)
          (Flyable.inFlight (some 1) (⟨0, 0, 2⟩ : Vec3 ℚ) 1 3)) :=
  ⟨rfl, (explode_flag_order_reentrant_safe (fun kart _ _ => [none, some kart]) _ 0 (some 2) _
    rfl).2⟩

end Flyable
end STK

namespace STK
namespace Flyable
variable {K : Type} [LinearOrderedField K]

/-! ## C8: an exploded projectile is torn down -/

theorem ctor_m_exploded (st : Statics K) (kart : KartPtr) (type : Nat) (s0 : Flyable K) :
    (ctor st kart type s0).m_exploded = false ∧ (ctor st kart type s0).m_owner = kart := by
  simp [ctor, emit]

theorem createPhysics_some (ext : Ext K) (tr : Track K) (ownerTrans : Transform K)
    (shape : Nat) (offset velocity : Vec3 K) (s : Flyable K) (a : Nat)
    (h : s.m_owner = some a) :
    ∃ s1, createPhysics ext tr ownerTrans shape offset velocity s = some s1
      ∧ s1.m_exploded = s.m_exploded ∧ s1.m_body ≠ none := by
  unfold createPhysics
  rw [h]
  simp only [placeModel, createBody, TerrainInfo_update, emit]
  split_ifs <;> simp

theorem step_preserves (op : Op K) (s : Flyable K) (hb : s.m_body ≠ none)
    (hinv : s.m_exploded = true →
      s.bodyInPhysics = false ∧ s.inScene = false ∧ s.modelKids = []) :
    ∃ s1, step op s = some s1 ∧ s1.m_body ≠ none
      ∧ (s1.m_exploded = true →
          s1.bodyInPhysics = false ∧ s1.inScene = false ∧ s1.modelKids = []) := by
  have hexplode : ∀ (w : World K) (v : KartPtr) (t : Flyable K), t.m_body ≠ none →
      (t.m_exploded = true → t.bodyInPhysics = false ∧ t.inScene = false ∧ t.modelKids = []) →
      (explode w v t).m_body ≠ none
      ∧ ((explode w v t).m_exploded = true →
          (explode w v t).bodyInPhysics = false ∧ (explode w v t).inScene = false
          ∧ (explode w v t).modelKids = []) := by
    intro w v t htb hti
    cases h : t.m_exploded
    · rw [explode_of_not_exploded w v t h]
      exact ⟨htb, fun _ => ⟨rfl, rfl, rfl⟩⟩
    · rw [explode_of_exploded w v t h]
      exact ⟨htb, hti⟩
  cases op with
  | explode w v => exact ⟨explode w v s, rfl, hexplode w v s hb hinv⟩
  | update tr w dt =>
    cases h : s.m_exploded
    · obtain ⟨b, hbs⟩ := Option.ne_none_iff_exists'.mp hb
      have hn : ¬ (s.m_exploded = true) := by simp [h]
      by_cases hno : tr.hot b.worldTrans.origin = tr.NOHIT
      · refine ⟨explode w none (TerrainInfo_update tr b.worldTrans.origin s), ?_, ?_⟩
        · simp [step, update, h, hbs, TerrainInfo_update, emit, hno]
        · apply hexplode
          · simpa [TerrainInfo_update, emit] using hb
          · intro he
            simp [TerrainInfo_update, emit, h] at he
      · simp only [step, update, if_neg hn, hbs, TerrainInfo_update, emit, hno, if_false]
        split_ifs <;> simp [h, hbs]
    · exact ⟨s, update_of_exploded tr w dt s h, hb, hinv⟩

theorem run_preserves (ops : List (Op K)) (s : Flyable K) (hb : s.m_body ≠ none)
    (hinv : s.m_exploded = true →
      s.bodyInPhysics = false ∧ s.inScene = false ∧ s.modelKids = []) :
    ∃ s1, run ops s = some s1 ∧ s1.m_body ≠ none
      ∧ (s1.m_exploded = true →
          s1.bodyInPhysics = false ∧ s1.inScene = false ∧ s1.modelKids = []) := by
  induction ops generalizing s with
  | nil => exact ⟨s, rfl, hb, hinv⟩
  | cons op rest ih =>
    obtain ⟨s1, h1, hb1, hinv1⟩ := step_preserves op s hb hinv
    obtain ⟨s2, h2, hb2, hinv2⟩ := ih s1 hb1 hinv1
    refine ⟨s2, ?_, hb2, hinv2⟩
    simp [run, h1, h2]

/-- C8.  Construct a projectile for a non-null owner and call `createPhysics`
once: it succeeds, and every sequence `ops` of `update` and `explode` calls
run from there succeeds and ends in a state `s` in which `m_exploded = true`
implies that the body is not registered with the physics world, the model
transform is not in the scene and has no children, and `update` on `s`
returns `s` itself for every track, world and `dt` (no hook is dispatched,
nothing changes). -/
theorem exploded_implies_torn_down (ext : Ext K) (tr0 : Track K) (ownerTrans : Transform K)
    (shape : Nat) (offset velocity : Vec3 K) (st : Statics K) (kart : KartPtr) (type : Nat)
    (s0 : Flyable K) (hk : kart ≠ none) :
    ∃ s1, createPhysics ext tr0 ownerTrans shape offset velocity (ctor st kart type s0) = some s1
      ∧ ∀ ops : List (Op K), ∃ s, run ops s1 = some s
          ∧ (s.m_exploded = true →
              s.bodyInPhysics = false ∧ s.inScene = false ∧ s.modelKids = []
              ∧ ∀ (tr : Track K) (w : World K) (dt : K), update tr w dt s = some s) := by
  obtain ⟨a, ha⟩ := Option.ne_none_iff_exists'.mp hk
  have hc := ctor_m_exploded st kart type s0
  obtain ⟨s1, h1, he1, hb1⟩ := createPhysics_some ext tr0 ownerTrans shape offset velocity
    (ctor st kart type s0) a (by rw [hc.2, ha])
  refine ⟨s1, h1, fun ops => ?_⟩
  have hinv1 : s1.m_exploded = true →
      s1.bodyInPhysics = false ∧ s1.inScene = false ∧ s1.modelKids = [] := by
    intro he
    rw [he1, hc.1] at he
    exact absurd he (by simp)
  obtain ⟨s, hs, _, hinv⟩ := run_preserves ops s1 hb1 hinv1
  refine ⟨s, hs, fun he => ?_⟩
  obtain ⟨h2, h3, h4⟩ := hinv he
  exact ⟨h2, h3, h4, fun tr w dt => update_of_exploded tr w dt s he⟩

/-- C8 at a concrete input: owner `1`, launch straight ahead over flat ground. -/
theorem exploded_implies_torn_down_witness :
    (some 1 : KartPtr) ≠ none
    ∧ ∃ s1, createPhysics (Ext.straight : Ext ℚ) (Track.flat (-1000) 0)
          (Transform.translation ⟨0, 0, 1⟩) 0 ⟨0, 1, 0⟩ ⟨0, 25, 0⟩
          (ctor Statics.defaults (some 1) 0 Flyable.blank) = some s1
      ∧ ∀ ops : List (Op ℚ), ∃ s, run ops s1 = some s
          ∧ (s.m_exploded = true →
              s.bodyInPhysics = false ∧ s.inScene = false ∧ s.modelKids = []
              ∧ ∀ (tr : Track ℚ) (w : World ℚ) (dt : ℚ), update tr w dt s = some s) :=
  ⟨by simp, exploded_implies_torn_down _ _ _ _ _ _ _ (some 1) _ _ (by simp)⟩

end Flyable
end STK

namespace STK
namespace Flyable
variable {K : Type} [LinearOrderedField K]

/-! ## C9: `init` -/

/-- C9.  After `init`, the tables hold for the type: under each of the four
keys the value of the source when it has one and the default otherwise
(`speed` 25, `min-height` 3, `max-height` 1, `force-updown` 15); the extent is
the per-axis span of the bounding box of the model; and with a source that
has no key the four values are `25, 3, 1, 15`. -/
theorem init_defaults_and_overrides (lisp : String → Option K) (MinMax : Nat → BBox K)
    (model type : Nat) (st : Statics K) :
    (init lisp MinMax model type st).m_st_speed type = (lisp "speed").getD 25
    ∧ (init lisp MinMax model type st).m_st_min_height type = (lisp "min-height").getD 3
    ∧ (init lisp MinMax model type st).m_st_max_height type = (lisp "max-height").getD 1
    ∧ (init lisp MinMax model type st).m_st_force_updown type = (lisp "force-updown").getD 15
    ∧ (init lisp MinMax model type st).m_st_extend type
        = ⟨(MinMax model).x_max - (MinMax model).x_min,
           (MinMax model).y_max - (MinMax model).y_min,
           (MinMax model).z_max - (MinMax model).z_min⟩
    ∧ (init (fun _ => none) MinMax model type st).m_st_speed type = 25
    ∧ (init (fun _ => none) MinMax model type st).m_st_min_height type = 3
    ∧ (init (fun _ => none) MinMax model type st).m_st_max_height type = 1
    ∧ (init (fun _ => none) MinMax model type st).m_st_force_updown type = 15 := by
  have hget : ∀ (name : String) (d : K), lisp_get lisp name d = (lisp name).getD d := by
    intro name d
    unfold lisp_get
    cases lisp name <;> rfl
  refine ⟨?_, ?_, ?_, ?_, ?_, ?_, ?_, ?_, ?_⟩
  · simp only [init, Function.update_same, hget]; norm_num
  · simp only [init, Function.update_same, hget]; norm_num
  · simp only [init, Function.update_same, hget]; norm_num
  · simp only [init, Function.update_same, hget]; norm_num
  · simp only [init, Function.update_same]
  · simp only [init, Function.update_same, lisp_get]; norm_num
  · simp only [init, Function.update_same, lisp_get]; norm_num
  · simp only [init, Function.update_same, lisp_get]; norm_num
  · simp only [init, Function.update_same, lisp_get]; norm_num

/-! ## C10: `getClosestKart` with no eligible kart -/

theorem foldl_step_all_owner (sqrt : K → K) (m_owner : KartPtr) (t : Transform K)
    (karts : List (Kart K)) (out : Closest K)
    (h : ∀ k ∈ karts, some k.addr = m_owner) :
    karts.foldl (getClosestKart_step sqrt m_owner t) out = out := by
  induction karts generalizing out with
  | nil => rfl
  | cons k ks ih =>
    have hk : some k.addr = m_owner := h k (List.mem_cons_self k ks)
    have hstep : getClosestKart_step sqrt m_owner t out k = out := by
      unfold getClosestKart_step
      rw [if_pos hk]
    rw [List.foldl_cons, hstep]
    exact ih out (fun k1 hk1 => h k1 (List.mem_cons_of_mem k hk1))

/-- C10.  For a projectile with a body, when every kart of the world is the
owner (in particular when the world has no kart), `getClosestKart` returns
with `minDist = 99999.9` and with `minKart` and `minDelta` as the caller
passed them in. -/
theorem getClosestKart_only_owner (sqrt : K → K) (w : World K) (s : Flyable K)
    (out : Closest K) (b : Body K) (hb : s.m_body = some b)
    (h : ∀ k ∈ w.karts, some k.addr = s.m_owner) :
    getClosestKart sqrt w s out
      = some { minKart := out.minKart, minDist := 99999.9, minDelta := out.minDelta } := by
  unfold getClosestKart getTrans
  rw [hb]
  simp only [Option.map_some']
  rw [foldl_step_all_owner sqrt s.m_owner b.worldTrans w.karts _ h]

/-- C10 at a concrete input: the world holds the owner alone, and the caller
passes in kart `9`, distance `4` and delta `(1,2,3)`. -/
theorem getClosestKart_only_owner_witness :
    (∀ k ∈ (World.ofList [(1, (⟨3, 0, 0⟩ : Vec3 ℚ))]).karts,
        some k.addr = (Flyable.inFlight (some 1) (⟨0, 0, 2⟩ : Vec3 ℚ) 1 3).m_owner)
    ∧ getClosestKart (fun x => x) (World.ofList [(1, (⟨3, 0, 0⟩ : Vec3 ℚ))])
        (Flyable.inFlight (some 1) ⟨0, 0, 2⟩ 1 3) ⟨some 9, 4, ⟨1, 2, 3⟩⟩
      = some { minKart := some 9, minDist := 99999.9, minDelta := ⟨1, 2, 3⟩ } :=
  ⟨by simp [World.ofList, Flyable.inFlight],
   getClosestKart_only_owner (fun x => x) (World.ofList [(1, (⟨3, 0, 0⟩ : Vec3 ℚ))])
     (Flyable.inFlight (some 1) ⟨0, 0, 2⟩ 1 3) ⟨some 9, 4, ⟨1, 2, 3⟩⟩
     { worldTrans := Transform.translation ⟨0, 0, 2⟩, mass := 1, shape := 0,
       gravity := some Vec3.zero, linearVelocity := Vec3.zero, angularFactor := 0,
       noContactResponse := true }
     rfl (by simp [World.ofList, Flyable.inFlight])⟩

end Flyable
end STK

namespace STK
namespace Flyable
variable {K : Type} [LinearOrderedField K]

/-! ## Lemmas on `createPhysics` -/

theorem Mat3_mul_identity (m : Mat3 K) : m.mul Mat3.identity = m := by
  obtain ⟨⟨a, b, c⟩, ⟨d, e, f⟩, ⟨g, h, i⟩⟩ := m
  simp [Mat3.mul, Mat3.identity, Mat3.col0, Mat3.col1, Mat3.col2, Vec3.dot]

theorem createPhysics_result (ext : Ext K) (tr : Track K) (ownerTrans : Transform K)
    (shape : Nat) (offset velocity : Vec3 K) (s : Flyable K) (a : Nat)
    (ho : s.m_owner = some a) :
    ∃ s1, createPhysics ext tr ownerTrans shape offset velocity s = some s1
      ∧ s1.m_body.map (fun b => b.worldTrans.basis)
          = some (ext.setEulerZYX (launchPitch ext tr ownerTrans) 0
              (launchHeading ext ownerTrans))
      ∧ s1.m_body.map (fun b => b.worldTrans.origin)
          = some (ownerTrans.origin.add
              ((ext.setEulerZYX (launchPitch ext tr ownerTrans) 0
                (launchHeading ext ownerTrans)).mulVec offset))
      ∧ (s.m_mass ≠ 0 →
          s1.m_body.map (fun b => b.linearVelocity)
            = some ((ext.setEulerZYX (launchPitch ext tr ownerTrans) 0
                (launchHeading ext ownerTrans)).mulVec velocity))
      ∧ s1.m_exploded = s.m_exploded
      ∧ s1.bodyInPhysics = true
      ∧ s1.trace = s.trace ++
          [⟨.TerrainInfo_update ownerTrans.origin, s.m_exploded⟩, ⟨.addBody, s.m_exploded⟩] := by
  have h0 : (0.0 : K) = 0 := by norm_num
  unfold createPhysics
  rw [ho]
  simp only [placeModel, createBody, TerrainInfo_update, emit, launchPitch, launchHeading,
    slopePitch, Transform.mul, Mat3_mul_identity, h0]
  split_ifs <;> simp_all

end Flyable
end STK

namespace STK
namespace Flyable

/-! ## C11: heading and pitch over flat terrain -/

/-- C11.  Over the reals, with `atan2 y x` the argument of `x + y i`, `acosf`
the arc cosine and `NINETY_DEGREE_RAD = π / 2`: when the owner's rotation is
the rotation by `θ` about the vertical axis, `-π < θ ≤ π`, and the track has a
surface with normal `(0,0,1)` under the owner, `createPhysics` computes
heading `θ` and pitch `0`, succeeds, and gives the body the rotation
`setEulerZYX(0, 0, θ)`. -/
theorem createPhysics_flat_terrain_heading (ext : Ext ℝ) (tr : Track ℝ) (θ : ℝ)
    (origin : Vec3 ℝ) (shape : Nat) (offset velocity : Vec3 ℝ) (s : Flyable ℝ) (a : Nat)
    (hθ : -Real.pi < θ ∧ θ ≤ Real.pi)
    (hatan2 : ∀ y x : ℝ, ext.atan2 y x = Complex.arg ⟨x, y⟩)
    (hacos : ∀ x : ℝ, ext.acosf x = Real.arccos x)
    (h90 : ext.NINETY_DEGREE_RAD = Real.pi / 2)
    (hsurf : tr.hot origin ≠ tr.NOHIT) (hflat : tr.normal origin = ⟨0, 0, 1⟩)
    (ho : s.m_owner = some a) :
    launchHeading ext ⟨Mat3.rotZ (Real.cos θ) (Real.sin θ), origin⟩ = θ
    ∧ launchPitch ext tr ⟨Mat3.rotZ (Real.cos θ) (Real.sin θ), origin⟩ = 0
    ∧ ∃ s1, createPhysics ext tr ⟨Mat3.rotZ (Real.cos θ) (Real.sin θ), origin⟩ shape offset
          velocity s = some s1
        ∧ s1.m_body.map (fun b => b.worldTrans.basis) = some (ext.setEulerZYX 0 0 θ) := by
  have hh : launchHeading ext ⟨Mat3.rotZ (Real.cos θ) (Real.sin θ), origin⟩ = θ := by
    have harg : Complex.arg ⟨Real.cos θ, Real.sin θ⟩ = θ := by
      have h : Complex.arg (Complex.cos θ + Complex.sin θ * Complex.I) = θ :=
        Complex.arg_cos_add_sin_mul_I ⟨hθ.1, hθ.2⟩
      have he : (⟨Real.cos θ, Real.sin θ⟩ : ℂ)
          = Complex.cos θ + Complex.sin θ * Complex.I := by
        apply Complex.ext
        · simp [← Complex.ofReal_cos, ← Complex.ofReal_sin]
        · simp [← Complex.ofReal_cos, ← Complex.ofReal_sin]
      rw [he]; exact h
    simp only [launchHeading, Mat3.rotZ, Mat3.mulVec, Vec3.dot, hatan2]
    norm_num
    exact harg
  have hp : launchPitch ext tr ⟨Mat3.rotZ (Real.cos θ) (Real.sin θ), origin⟩ = 0 := by
    simp only [launchPitch, slopePitch, hflat, hacos, h90]
    rw [if_pos hsurf]
    simp [Real.arccos_zero]
  refine ⟨hh, hp, ?_⟩
  obtain ⟨s1, h1, h2, _⟩ := createPhysics_result ext tr
    ⟨Mat3.rotZ (Real.cos θ) (Real.sin θ), origin⟩ shape offset velocity s a ho
  refine ⟨s1, h1, ?_⟩
  rw [h2, hh, hp]

/-- C11 at a concrete input: the owner is turned by `π / 2` and stands at the
origin of a flat track at height `0`. -/
theorem createPhysics_flat_terrain_heading_witness :
    (-Real.pi < Real.pi / 2 ∧ Real.pi / 2 ≤ Real.pi)
    ∧ launchHeading
        { sqrt := Real.sqrt, atan2 := fun y x => Complex.arg ⟨x, y⟩, sin := Real.sin,
          cos := Real.cos, acosf := Real.arccos, NINETY_DEGREE_RAD := Real.pi / 2,
          setEulerZYX := fun _ _ z => Mat3.rotZ (Real.cos z) (Real.sin z),
          hprOf := fun _ => Vec3.zero }
        ⟨Mat3.rotZ (Real.cos (Real.pi / 2)) (Real.sin (Real.pi / 2)), ⟨0, 0, 0⟩⟩
      = Real.pi / 2 :=
  ⟨⟨by linarith [Real.pi_pos], by linarith [Real.pi_pos]⟩,
   (createPhysics_flat_terrain_heading
      { sqrt := Real.sqrt, atan2 := fun y x => Complex.arg ⟨x, y⟩, sin := Real.sin,
        cos := Real.cos, acosf := Real.arccos, NINETY_DEGREE_RAD := Real.pi / 2,
        setEulerZYX := fun _ _ z => Mat3.rotZ (Real.cos z) (Real.sin z),
        hprOf := fun _ => Vec3.zero }
      (Track.flat (-1000) 0) (Real.pi / 2) ⟨0, 0, 0⟩ 0 ⟨0, 1, 0⟩ ⟨0, 25, 0⟩
      (Flyable.inFlight (some 1) ⟨0, 0, 0⟩ 3 1) 1
      ⟨by linarith [Real.pi_pos], by linarith [Real.pi_pos]⟩
      (fun _ _ => rfl) (fun _ => rfl) rfl (by norm_num [Track.flat]) rfl rfl).1⟩

/-! ## C12: the pitch under a flipped normal -/

/-- C12.  Over the reals, with `acosf` the arc cosine and
`NINETY_DEGREE_RAD = π / 2`: for every heading `θ` and every normal
`(nx, ny, nz)`, the pitch of lines 83-93 at `(-nx, -ny, nz)` is minus the
pitch at `(nx, ny, nz)`; and when two tracks have a surface under the owner
and their normals there differ in the sign of the two horizontal components,
`createPhysics` computes opposite pitches (and the same heading) over them. -/
theorem slopePitch_flip_horizontal (ext : Ext ℝ) (tr tr2 : Track ℝ)
    (ownerTrans : Transform ℝ) (nx ny nz θ : ℝ) (shape : Nat) (offset velocity : Vec3 ℝ)
    (s : Flyable ℝ) (a : Nat) (ho : s.m_owner = some a)
    (hacos : ∀ x : ℝ, ext.acosf x = Real.arccos x)
    (h90 : ext.NINETY_DEGREE_RAD = Real.pi / 2)
    (hsurf : tr.hot ownerTrans.origin ≠ tr.NOHIT)
    (hsurf2 : tr2.hot ownerTrans.origin ≠ tr2.NOHIT)
    (hn : tr.normal ownerTrans.origin = ⟨nx, ny, nz⟩)
    (hn2 : tr2.normal ownerTrans.origin = ⟨-nx, -ny, nz⟩) :
    slopePitch ext ⟨-nx, -ny, nz⟩ θ = -slopePitch ext ⟨nx, ny, nz⟩ θ
    ∧ slopePitch ext ⟨nx, ny, nz⟩ θ
        = Real.arccos ((nx * (-ext.sin θ) + ny * ext.cos θ)
            / ext.sqrt (nx * nx + ny * ny + nz * nz)) - Real.pi / 2
    ∧ launchPitch ext tr2 ownerTrans = -launchPitch ext tr ownerTrans
    ∧ ∃ s1 s2 p,
        createPhysics ext tr ownerTrans shape offset velocity s = some s1
        ∧ createPhysics ext tr2 ownerTrans shape offset velocity s = some s2
        ∧ s1.m_body.map (fun b => b.worldTrans.basis)
            = some (ext.setEulerZYX p 0 (launchHeading ext ownerTrans))
        ∧ s2.m_body.map (fun b => b.worldTrans.basis)
            = some (ext.setEulerZYX (-p) 0 (launchHeading ext ownerTrans)) := by
  have hflip : ∀ h : ℝ, slopePitch ext ⟨-nx, -ny, nz⟩ h = -slopePitch ext ⟨nx, ny, nz⟩ h := by
    intro h
    simp only [slopePitch, Vec3.length, Vec3.length2, Vec3.dot, hacos, h90]
    have e1 : (-nx * -ext.sin h + -ny * ext.cos h) / ext.sqrt (-nx * -nx + -ny * -ny + nz * nz)
        = -((nx * -ext.sin h + ny * ext.cos h) / ext.sqrt (nx * nx + ny * ny + nz * nz)) := by
      rw [neg_mul_neg nx nx, neg_mul_neg ny ny]
      ring
    rw [e1, Real.arccos_neg]
    ring
  have hlaunch : launchPitch ext tr2 ownerTrans = -launchPitch ext tr ownerTrans := by
    simp only [launchPitch]
    rw [if_pos hsurf, if_pos hsurf2, hn, hn2]
    exact hflip _
  refine ⟨hflip θ, ?_, hlaunch, ?_⟩
  · simp only [slopePitch, Vec3.length, Vec3.length2, Vec3.dot, hacos, h90]
  · obtain ⟨s1, h1, hb1, _⟩ := createPhysics_result ext tr ownerTrans shape offset velocity s a ho
    obtain ⟨s2, h2, hb2, _⟩ := createPhysics_result ext tr2 ownerTrans shape offset velocity s a ho
    refine ⟨s1, s2, launchPitch ext tr ownerTrans, h1, h2, hb1, ?_⟩
    rw [hb2, hlaunch]

/-- C12 at a concrete input: heading `0`, where the formula reads the second
component of the normal, and the normals `(0, 3/5, 4/5)` and `(0, -3/5, 4/5)`.
The pitch at the first is `arccos (3/5) - π / 2`, which is negative, the pitch
at the second is its negative, which is positive. -/
theorem slopePitch_flip_horizontal_witness :
    (Flyable.inFlight (some 1) (⟨0, 0, 0⟩ : Vec3 ℝ) 3 1).m_owner = some 1
    ∧ slopePitch
        { sqrt := Real.sqrt, atan2 := fun y x => Complex.arg ⟨x, y⟩, sin := Real.sin,
          cos := Real.cos, acosf := Real.arccos, NINETY_DEGREE_RAD := Real.pi / 2,
          setEulerZYX := fun _ _ z => Mat3.rotZ (Real.cos z) (Real.sin z),
          hprOf := fun _ => Vec3.zero }
        ⟨-0, -(3 / 5), 4 / 5⟩ 0
      = -slopePitch
        { sqrt := Real.sqrt, atan2 := fun y x => Complex.arg ⟨x, y⟩, sin := Real.sin,
          cos := Real.cos, acosf := Real.arccos, NINETY_DEGREE_RAD := Real.pi / 2,
          setEulerZYX := fun _ _ z => Mat3.rotZ (Real.cos z) (Real.sin z),
          hprOf := fun _ => Vec3.zero }
        ⟨0, 3 / 5, 4 / 5⟩ 0
    ∧ slopePitch
        { sqrt := Real.sqrt, atan2 := fun y x => Complex.arg ⟨x, y⟩, sin := Real.sin,
          cos := Real.cos, acosf := Real.arccos, NINETY_DEGREE_RAD := Real.pi / 2,
          setEulerZYX := fun _ _ z => Mat3.rotZ (Real.cos z) (Real.sin z),
          hprOf := fun _ => Vec3.zero }
        ⟨0, 3 / 5, 4 / 5⟩ 0
      = Real.arccos (3 / 5) - Real.pi / 2
    ∧ slopePitch
        { sqrt := Real.sqrt, atan2 := fun y x => Complex.arg ⟨x, y⟩, sin := Real.sin,
          cos := Real.cos, acosf := Real.arccos, NINETY_DEGREE_RAD := Real.pi / 2,
          setEulerZYX := fun _ _ z => Mat3.rotZ (Real.cos z) (Real.sin z),
          hprOf := fun _ => Vec3.zero }
        ⟨0, 3 / 5, 4 / 5⟩ 0 < 0
    ∧ 0 < slopePitch
        { sqrt := Real.sqrt, atan2 := fun y x => Complex.arg ⟨x, y⟩, sin := Real.sin,
          cos := Real.cos, acosf := Real.arccos, NINETY_DEGREE_RAD := Real.pi / 2,
          setEulerZYX := fun _ _ z => Mat3.rotZ (Real.cos z) (Real.sin z),
          hprOf := fun _ => Vec3.zero }
        ⟨-0, -(3 / 5), 4 / 5⟩ 0 :=
  have h := slopePitch_flip_horizontal
      { sqrt := Real.sqrt, atan2 := fun y x => Complex.arg ⟨x, y⟩, sin := Real.sin,
          cos := Real.cos, acosf := Real.arccos, NINETY_DEGREE_RAD := Real.pi / 2,
          setEulerZYX := fun _ _ z => Mat3.rotZ (Real.cos z) (Real.sin z),
          hprOf := fun _ => Vec3.zero }
      { NOHIT := -1000, hot := fun _ => 0, normal := fun _ => ⟨0, 3 / 5, 4 / 5⟩ }
      { NOHIT := -1000, hot := fun _ => 0, normal := fun _ => ⟨-0, -(3 / 5), 4 / 5⟩ }
      (Transform.translation ⟨0, 0, 0⟩) 0 (3 / 5) (4 / 5) 0 0 ⟨0, 1, 0⟩ ⟨0, 25, 0⟩
      (Flyable.inFlight (some 1) ⟨0, 0, 0⟩ 3 1) 1 rfl
      (fun _ => rfl) rfl (by norm_num) (by norm_num) rfl rfl
  have hval : slopePitch
        { sqrt := Real.sqrt, atan2 := fun y x => Complex.arg ⟨x, y⟩, sin := Real.sin,
          cos := Real.cos, acosf := Real.arccos, NINETY_DEGREE_RAD := Real.pi / 2,
          setEulerZYX := fun _ _ z => Mat3.rotZ (Real.cos z) (Real.sin z),
          hprOf := fun _ => Vec3.zero }
        ⟨0, 3 / 5, 4 / 5⟩ 0
      = Real.arccos (3 / 5) - Real.pi / 2 := by
    rw [h.2.1]
    have h1 : (0 * 0 + 3 / 5 * (3 / 5) + 4 / 5 * (4 / 5) : ℝ) = 1 := by norm_num
    simp only [Real.sin_zero, Real.cos_zero, h1, Real.sqrt_one]
    norm_num
  have hneg : Real.arccos (3 / 5) - Real.pi / 2 < 0 := by
    have := Real.arccos_lt_pi_div_two.mpr (by norm_num : (0 : ℝ) < 3 / 5)
    linarith
  ⟨rfl, h.1, hval, by rw [hval]; exact hneg, by rw [h.1, hval]; linarith⟩

end Flyable
end STK

namespace STK
namespace Flyable
variable {K : Type} [LinearOrderedField K]

/-! ## C13: launch where the track has no surface -/

/-- C13.  When the track answer under the owner is `NOHIT` (and the owner is
not `NULL`, the mass not `0`), `createPhysics` computes pitch `0` whatever the
owner's rotation and whatever normal the track reports, succeeds, gives the
body the rotation `setEulerZYX(0, 0, heading)` and the launch velocity
turned by it, registers the body, and calls nothing but the terrain query and
`addBody`: `m_exploded` keeps its value. -/
theorem createPhysics_no_surface_flat_launch (ext : Ext K) (tr : Track K)
    (ownerTrans : Transform K) (shape : Nat) (offset velocity : Vec3 K) (s : Flyable K)
    (a : Nat) (ho : s.m_owner = some a) (hm : s.m_mass ≠ 0)
    (hno : tr.hot ownerTrans.origin = tr.NOHIT) :
    launchPitch ext tr ownerTrans = 0
    ∧ ∃ s1, createPhysics ext tr ownerTrans shape offset velocity s = some s1
        ∧ s1.m_body.map (fun b => b.worldTrans.basis)
            = some (ext.setEulerZYX 0 0 (launchHeading ext ownerTrans))
        ∧ s1.m_body.map (fun b => b.linearVelocity)
            = some ((ext.setEulerZYX 0 0 (launchHeading ext ownerTrans)).mulVec velocity)
        ∧ s1.bodyInPhysics = true
        ∧ s1.m_exploded = s.m_exploded
        ∧ s1.trace = s.trace ++
            [⟨.TerrainInfo_update ownerTrans.origin, s.m_exploded⟩,
             ⟨.addBody, s.m_exploded⟩] := by
  have hp : launchPitch ext tr ownerTrans = 0 := by
    simp only [launchPitch]
    rw [if_neg (by simp [hno])]
    norm_num
  obtain ⟨s1, h1, hb, _, hv, he, hr, ht⟩ :=
    createPhysics_result ext tr ownerTrans shape offset velocity s a ho
  refine ⟨hp, s1, h1, ?_, ?_, hr, he, ht⟩
  · rw [hb, hp]
  · rw [hv hm, hp]

/-- C13 at a concrete input: a freshly constructed projectile of owner `1`,
launched where the track has no surface. -/
theorem createPhysics_no_surface_flat_launch_witness :
    (ctor Statics.defaults (some 1) 0 (Flyable.blank : Flyable ℚ)).m_mass ≠ 0
    ∧ launchPitch (Ext.straight : Ext ℚ) (Track.flat (-1000) (-1000))
        (Transform.translation ⟨0, 0, 1⟩) = 0 :=
  ⟨by norm_num [ctor, emit, Flyable.blank],
   (createPhysics_no_surface_flat_launch (Ext.straight : Ext ℚ) (Track.flat (-1000) (-1000))
      (Transform.translation ⟨0, 0, 1⟩) 0 ⟨0, 1, 0⟩ ⟨0, 25, 0⟩
      (ctor Statics.defaults (some 1) 0 Flyable.blank) 1 rfl
      (by norm_num [ctor, emit, Flyable.blank]) rfl).1⟩

/-! ## C14: the instance holds a snapshot of the configuration -/

/-- C14.  A projectile constructed with type `t` has `m_speed`, `m_extend`,
`m_min_height`, `m_max_height`, `m_force_updown` equal to the entries of the
tables for `t` at that time, and `m_has_hit_something = false`,
`m_last_radar_beep = -1`, `m_exploded = false`, `m_shape = NULL`,
`m_mass = 1`; a later `init`, for `t` or another type and with any source and
model, leaves the projectile as it is, so each of these fields still holds
the value read at construction. -/
theorem ctor_snapshot_unchanged_by_init (st : Statics K) (kart : KartPtr) (t : Nat)
    (s0 : Flyable K) (lisp : String → Option K) (MinMax : Nat → BBox K) (model t2 : Nat) :
    ((Program.construct kart t s0 st).live.m_speed = st.m_st_speed t
      ∧ (Program.construct kart t s0 st).live.m_extend = st.m_st_extend t
      ∧ (Program.construct kart t s0 st).live.m_min_height = st.m_st_min_height t
      ∧ (Program.construct kart t s0 st).live.m_max_height = st.m_st_max_height t
      ∧ (Program.construct kart t s0 st).live.m_force_updown = st.m_st_force_updown t
      ∧ (Program.construct kart t s0 st).live.m_has_hit_something = false
      ∧ (Program.construct kart t s0 st).live.m_last_radar_beep = -1
      ∧ (Program.construct kart t s0 st).live.m_exploded = false
      ∧ (Program.construct kart t s0 st).live.m_shape = none
      ∧ (Program.construct kart t s0 st).live.m_mass = 1)
    ∧ (Program.init lisp MinMax model t2 (Program.construct kart t s0 st)).live
        = (Program.construct kart t s0 st).live
    ∧ (Program.init lisp MinMax model t2 (Program.construct kart t s0 st)).live.m_speed
        = st.m_st_speed t
    ∧ (Program.init lisp MinMax model t2 (Program.construct kart t s0 st)).statics
        = init lisp MinMax model t2 st := by
  refine ⟨?_, rfl, ?_, rfl⟩
  · simp only [Program.construct, ctor, emit]
    norm_num
  · simp only [Program.init, Program.construct, ctor, emit]

end Flyable
end STK

namespace STK
namespace Flyable
variable {K : Type} [LinearOrderedField K]

/-- C14 at a concrete input: the tables hold speed `25` for type `0` when the
projectile is constructed; a later `init` whose source gives `40` under every
key sets the table entry to `40`, and the projectile still has speed `25`. -/
theorem ctor_snapshot_unchanged_by_init_witness :
    (Program.init (fun _ => some 40) (fun _ => ⟨0, 1, 0, 1, 0, 1⟩) 7 0
        (Program.construct (some 1) 0 Flyable.blank (Statics.defaults : Statics ℚ))).live.m_speed
      = 25
    ∧ (Program.init (fun _ => some 40) (fun _ => ⟨0, 1, 0, 1, 0, 1⟩) 7 0
        (Program.construct (some 1) 0 Flyable.blank
          (Statics.defaults : Statics ℚ))).statics.m_st_speed 0
      = 40 :=
  ⟨(ctor_snapshot_unchanged_by_init (Statics.defaults : Statics ℚ) (some 1) 0 Flyable.blank
      (fun _ => some 40) (fun _ => ⟨0, 1, 0, 1, 0, 1⟩) 7 0).2.2.1,
   by simp [Program.init, Program.construct, init, lisp_get]⟩

/-! ## C15: `m_exploded` never goes back to `false` -/

theorem invoke_keeps_exploded (m : Method K) (s s1 : Flyable K) (h : invoke m s = some s1)
    (he : s.m_exploded = true) : s1.m_exploded = true := by
  cases m with
  | createPhysics ext tr ownerTrans shape offset velocity =>
    cases ho : s.m_owner with
    | none => simp [invoke, createPhysics, ho] at h
    | some a =>
      obtain ⟨s2, h2, _, _, _, he2, _⟩ :=
        createPhysics_result ext tr ownerTrans shape offset velocity s a ho
      simp only [invoke] at h
      rw [h2] at h
      cases h
      rw [he2, he]
  | update tr w dt =>
    simp only [invoke, update_of_exploded tr w dt s he] at h
    cases h
    exact he
  | explode w v =>
    simp only [invoke] at h
    cases h
    exact explode_m_exploded w v s
  | placeModel ext =>
    simp only [invoke, placeModel] at h
    cases hb : s.m_body with
    | none => simp [hb] at h
    | some b =>
      simp only [hb] at h
      cases h
      exact he
  | getClosestKart sqrt w out =>
    simp only [invoke] at h
    cases hg : getClosestKart sqrt w s out with
    | none => simp [hg] at h
    | some r =>
      simp only [hg, Option.map_some'] at h
      cases h
      exact he

theorem invoke_sets_exploded_in_explode (m : Method K) (s s1 : Flyable K)
    (h : invoke m s = some s1) (he : s.m_exploded = false) (he1 : s1.m_exploded = true) :
    (∃ w v, m = .explode w v ∧ s1 = explode w v s)
    ∨ (∃ tr w dt b, m = .update tr w dt ∧ s.m_body = some b
        ∧ tr.hot b.worldTrans.origin = tr.NOHIT
        ∧ s1 = explode w none (TerrainInfo_update tr b.worldTrans.origin s)) := by
  cases m with
  | createPhysics ext tr ownerTrans shape offset velocity =>
    cases ho : s.m_owner with
    | none => simp [invoke, createPhysics, ho] at h
    | some a =>
      obtain ⟨s2, h2, _, _, _, he2, _⟩ :=
        createPhysics_result ext tr ownerTrans shape offset velocity s a ho
      simp only [invoke] at h
      rw [h2] at h
      cases h
      rw [he2, he] at he1
      exact absurd he1 (by simp)
  | update tr w dt =>
    right
    cases hb : s.m_body with
    | none => simp [invoke, update, he, hb] at h
    | some b =>
      by_cases hno : tr.hot b.worldTrans.origin = tr.NOHIT
      · refine ⟨tr, w, dt, b, rfl, rfl, hno, ?_⟩
        simp [invoke, update, he, hb, TerrainInfo_update, emit, hno] at h
        rw [← h]
        simp [TerrainInfo_update, emit, he, hb, hno]
      · exfalso
        have hn : ¬ (s.m_exploded = true) := by simp [he]
        simp only [invoke, update, if_neg hn, hb, TerrainInfo_update, emit, hno,
          if_false] at h
        split_ifs at h <;> cases h <;> simp [he] at he1
  | explode w v =>
    left
    simp only [invoke] at h
    cases h
    exact ⟨w, v, rfl, rfl⟩
  | placeModel ext =>
    exfalso
    simp only [invoke, placeModel] at h
    cases hb : s.m_body with
    | none => simp [hb] at h
    | some b =>
      simp only [hb] at h
      cases h
      simp [he] at he1
  | getClosestKart sqrt w out =>
    exfalso
    simp only [invoke] at h
    cases hg : getClosestKart sqrt w s out with
    | none => simp [hg] at h
    | some r =>
      simp only [hg, Option.map_some'] at h
      cases h
      simp [he] at he1

theorem invokeAll_keeps_exploded (ms : List (Method K)) (s s1 : Flyable K)
    (h : invokeAll ms s = some s1) (he : s.m_exploded = true) : s1.m_exploded = true := by
  induction ms generalizing s with
  | nil =>
    simp only [invokeAll] at h
    cases h
    exact he
  | cons m rest ih =>
    simp only [invokeAll] at h
    cases hm : invoke m s with
    | none => simp [hm] at h
    | some s2 =>
      simp only [hm] at h
      exact ih s2 h (invoke_keeps_exploded m s s2 hm he)

/-- C15.  `m_exploded` is `false` after construction.  From any state `s`,
take a call `m` and then any sequence of calls `after`, each call one of
`createPhysics`, `update`, `explode`, `placeModel`, `getClosestKart`, all of
them returning.  If the flag is `true` before `m` it is `true` after `m` and
at the end; if it is `true` after `m` it is `true` at the end; and if `m`
turns it from `false` to `true`, then `m` is a call of `explode`, or an
`update` that found no surface and ran `explode(NULL)`. -/
theorem exploded_is_monotonic (st : Statics K) (kart : KartPtr) (type : Nat)
    (s0 : Flyable K) (after : List (Method K)) (m : Method K) (s s1 s2 : Flyable K)
    (hm : invoke m s = some s1) (hafter : invokeAll after s1 = some s2) :
    (ctor st kart type s0).m_exploded = false
    ∧ (s.m_exploded = true → s1.m_exploded = true ∧ s2.m_exploded = true)
    ∧ (s1.m_exploded = true → s2.m_exploded = true)
    ∧ (s.m_exploded = false → s1.m_exploded = true →
        (∃ w v, m = .explode w v ∧ s1 = explode w v s)
        ∨ (∃ tr w dt b, m = .update tr w dt ∧ s.m_body = some b
            ∧ tr.hot b.worldTrans.origin = tr.NOHIT
            ∧ s1 = explode w none (TerrainInfo_update tr b.worldTrans.origin s))) := by
  refine ⟨(ctor_m_exploded st kart type s0).1, ?_, ?_, ?_⟩
  · intro he
    have h1 := invoke_keeps_exploded m s s1 hm he
    exact ⟨h1, invokeAll_keeps_exploded after s1 s2 hafter h1⟩
  · exact invokeAll_keeps_exploded after s1 s2 hafter
  · exact invoke_sets_exploded_in_explode m s s1 hm

end Flyable
end STK

namespace STK
namespace Flyable

/-- C15 at a concrete input: a projectile in flight, an `update` over a track
without surface, which explodes it, then an `update` over a flat track. -/
theorem exploded_is_monotonic_witness :
    invoke (.update (Track.flat (-1000) (-1000)) (World.ofList [(1, ⟨0, 0, 0⟩)]) (1 / 60))
        (Flyable.inFlight (some 1) (⟨0, 0, 2⟩ : Vec3 ℚ) 1 3)
      = some (explode (World.ofList [(1, ⟨0, 0, 0⟩)]) none
          (TerrainInfo_update (Track.flat (-1000) (-1000)) ⟨0, 0, 2⟩
            (Flyable.inFlight (some 1) (⟨0, 0, 2⟩ : Vec3 ℚ) 1 3)))
    ∧ invokeAll [.update (Track.flat (-1000) 0) (World.ofList [(1, ⟨0, 0, 0⟩)]) (1 / 60)]
        (explode (World.ofList [(1, ⟨0, 0, 0⟩)]) none
          (TerrainInfo_update (Track.flat (-1000) (-1000)) ⟨0, 0, 2⟩
            (Flyable.inFlight (some 1) (⟨0, 0, 2⟩ : Vec3 ℚ) 1 3)))
      = some (explode (World.ofList [(1, ⟨0, 0, 0⟩)]) none
          (TerrainInfo_update (Track.flat (-1000) (-1000)) ⟨0, 0, 2⟩
            (Flyable.inFlight (some 1) (⟨0, 0, 2⟩ : Vec3 ℚ) 1 3)))
    ∧ (explode (World.ofList [(1, ⟨0, 0, 0⟩)]) none
          (TerrainInfo_update (Track.flat (-1000) (-1000)) ⟨0, 0, 2⟩
            (Flyable.inFlight (some 1) (⟨0, 0, 2⟩ : Vec3 ℚ) 1 3))).m_exploded = true :=
  ⟨rfl, rfl,
   (exploded_is_monotonic (Statics.defaults : Statics ℚ) (some 1) 0 Flyable.blank
      [.update (Track.flat (-1000) 0) (World.ofList [(1, ⟨0, 0, 0⟩)]) (1 / 60)]
      (.update (Track.flat (-1000) (-1000)) (World.ofList [(1, ⟨0, 0, 0⟩)]) (1 / 60))
      (Flyable.inFlight (some 1) (⟨0, 0, 2⟩ : Vec3 ℚ) 1 3) _ _ rfl rfl).2.2.1 rfl⟩

end Flyable
end STK

namespace STK
namespace Flyable
variable {K : Type} [LinearOrderedField K]

/-! ## C17: the height band when `m_min_height > m_max_height` -/

/-- C17.  For a projectile that has not exploded, over a surface, with
`m_max_height < m_min_height` and `hat = origin.z - HoT`: `update` dispatches
one hook, never `right_height`; it is `too_low` iff `hat < m_min_height` and
`too_high` iff `m_min_height ≤ hat`; so a height with
`m_max_height < hat < m_min_height` gets `too_low`. -/
theorem update_inverted_band (tr : Track K) (w : World K) (dt : K) (s : Flyable K)
    (b : Body K) (hexp : s.m_exploded = false) (hb : s.m_body = some b)
    (hsurf : tr.hot b.worldTrans.origin ≠ tr.NOHIT)
    (hcfg : s.m_max_height < s.m_min_height) :
    ∃ h : HeightHook,
      (update tr w dt s).map (fun s1 => s1.trace)
        = some (s.trace ++
            [⟨.TerrainInfo_update b.worldTrans.origin, false⟩, ⟨.hook h dt, false⟩,
             ⟨.Moveable_update dt, false⟩])
      ∧ h ≠ .right_height
      ∧ (h = .too_low ↔ b.worldTrans.origin.z - tr.hot b.worldTrans.origin < s.m_min_height)
      ∧ (h = .too_high ↔ s.m_min_height ≤ b.worldTrans.origin.z - tr.hot b.worldTrans.origin)
      ∧ (s.m_max_height < b.worldTrans.origin.z - tr.hot b.worldTrans.origin →
          b.worldTrans.origin.z - tr.hot b.worldTrans.origin < s.m_min_height →
          h = .too_low) := by
  by_cases hlow : b.worldTrans.origin.z - tr.hot b.worldTrans.origin < s.m_min_height
  · refine ⟨.too_low, ?_, by simp, ?_, ?_, fun _ _ => rfl⟩
    · simp [update, hexp, hb, TerrainInfo_update, emit, hsurf, hlow]
    · simp [hlow]
    · simp only [reduceCtorEq, false_iff, not_le]
      exact hlow
  · have hhigh : b.worldTrans.origin.z - tr.hot b.worldTrans.origin > s.m_max_height :=
      lt_of_lt_of_le hcfg (not_lt.mp hlow)
    refine ⟨.too_high, ?_, by simp, ?_, ?_, fun _ h2 => absurd h2 hlow⟩
    · simp [update, hexp, hb, TerrainInfo_update, emit, hsurf, hlow, hhigh]
    · simp only [reduceCtorEq, false_iff]
      exact hlow
    · simp only [true_iff]
      exact not_lt.mp hlow

/-- C17 at a concrete input: the default band (`m_min_height = 3`,
`m_max_height = 1`), terrain at `0` and the body at height `2`. -/
theorem update_inverted_band_witness :
    (Flyable.inFlight (some 1) (⟨0, 0, 2⟩ : Vec3 ℚ) 3 1).m_max_height
      < (Flyable.inFlight (some 1) (⟨0, 0, 2⟩ : Vec3 ℚ) 3 1).m_min_height
    ∧ ∃ h : HeightHook,
      (update (Track.flat (-1000) 0) (World.ofList []) (1 / 60)
          (Flyable.inFlight (some 1) (⟨0, 0, 2⟩ : Vec3 ℚ) 3 1)).map (fun s1 => s1.trace)
        = some ([] ++
            [⟨.TerrainInfo_update ⟨0, 0, 2⟩, false⟩, ⟨.hook h (1 / 60), false⟩,
             ⟨.Moveable_update (1 / 60), false⟩])
      ∧ h ≠ .right_height
      ∧ (h = .too_low ↔ (2 : ℚ) - 0 < 3)
      ∧ (h = .too_high ↔ (3 : ℚ) ≤ 2 - 0)
      ∧ ((1 : ℚ) < 2 - 0 → (2 : ℚ) - 0 < 3 → h = .too_low) :=
  ⟨by norm_num [Flyable.inFlight],
   update_inverted_band (Track.flat (-1000) 0) (World.ofList []) (1 / 60)
      (Flyable.inFlight (some 1) (⟨0, 0, 2⟩ : Vec3 ℚ) 3 1)
      { worldTrans := Transform.translation ⟨0, 0, 2⟩, mass := 1, shape := 0,
        gravity := some Vec3.zero, linearVelocity := Vec3.zero, angularFactor := 0,
        noContactResponse := true }
      rfl rfl (by norm_num [Track.flat]) (by norm_num [Flyable.inFlight])⟩

end Flyable
end STK

namespace STK
namespace Flyable

/-! ## Lemmas on the scan of `getClosestKart` -/

theorem getClosestKart_of_body {K : Type} [LinearOrderedField K] (sqrt : K → K)
    (w : World K) (s : Flyable K) (out : Closest K) (b : Body K) (hb : s.m_body = some b) :
    getClosestKart sqrt w s out
      = some (w.karts.foldl (getClosestKart_step sqrt s.m_owner b.worldTrans)
          { out with minDist := 99999.9 }) := by
  unfold getClosestKart getTrans
  rw [hb]
  rfl

theorem foldl_step_filter {K : Type} [LinearOrderedField K] (sqrt : K → K)
    (m_owner : KartPtr) (t : Transform K) (karts : List (Kart K)) (out : Closest K) :
    karts.foldl (getClosestKart_step sqrt m_owner t) out
      = (karts.filter (fun k => decide (some k.addr ≠ m_owner))).foldl
          (getClosestKart_step sqrt m_owner t) out := by
  induction karts generalizing out with
  | nil => rfl
  | cons k ks ih =>
    by_cases hk : some k.addr = m_owner
    · have hstep : getClosestKart_step sqrt m_owner t out k = out := by
        unfold getClosestKart_step
        rw [if_pos hk]
      rw [List.foldl_cons, hstep, ih, List.filter_cons_of_neg (by simp [hk])]
    · rw [List.foldl_cons, ih, List.filter_cons_of_pos (by simp [hk]), List.foldl_cons]

theorem sqrt_lt_sentinel (x : ℝ) (h : x < 99999.9) : Real.sqrt x < 99999.9 := by
  rw [Real.sqrt_lt' (by norm_num)]
  have : (99999.9 : ℝ) ≤ 99999.9 ^ 2 := by norm_num
  exact lt_of_lt_of_le h this

theorem step_minDist_le (m_owner : KartPtr) (t : Transform ℝ) (out : Closest ℝ)
    (k : Kart ℝ) (h : out.minDist ≤ 99999.9) :
    (getClosestKart_step Real.sqrt m_owner t out k).minDist ≤ 99999.9 := by
  unfold getClosestKart_step
  by_cases h1 : some k.addr = m_owner
  · rw [if_pos h1]
    exact h
  · rw [if_neg h1]
    by_cases h2 : (k.trans.origin.sub t.origin).length2 < out.minDist
    · simp only [h2, if_true]
      exact le_of_lt (sqrt_lt_sentinel _ (lt_of_lt_of_le h2 h))
    · simp only [h2, if_false]
      exact h

theorem foldl_step_minDist_le (m_owner : KartPtr) (t : Transform ℝ) (karts : List (Kart ℝ))
    (out : Closest ℝ) (h : out.minDist ≤ 99999.9) :
    (karts.foldl (getClosestKart_step Real.sqrt m_owner t) out).minDist ≤ 99999.9 := by
  induction karts generalizing out with
  | nil => exact h
  | cons k ks ih =>
    rw [List.foldl_cons]
    exact ih _ (step_minDist_le m_owner t out k h)

theorem scan_consistent (m_owner : KartPtr) (t : Transform ℝ) (karts : List (Kart ℝ))
    (out : Closest ℝ) (h : out.minDist ≤ 99999.9) :
    (selectsSome Real.sqrt m_owner t out karts = false →
      karts.foldl (getClosestKart_step Real.sqrt m_owner t) out = out)
    ∧ (selectsSome Real.sqrt m_owner t out karts = true →
      ∃ k ∈ karts, some k.addr ≠ m_owner
        ∧ (karts.foldl (getClosestKart_step Real.sqrt m_owner t) out).minKart = some k.addr
        ∧ (karts.foldl (getClosestKart_step Real.sqrt m_owner t) out).minDelta
            = k.trans.origin.sub t.origin
        ∧ (karts.foldl (getClosestKart_step Real.sqrt m_owner t) out).minDist
            = Real.sqrt (k.trans.origin.sub t.origin).length2
        ∧ (karts.foldl (getClosestKart_step Real.sqrt m_owner t) out).minDist < 99999.9) := by
  induction karts generalizing out with
  | nil => simp [selectsSome]
  | cons k ks ih =>
    obtain ⟨ih1, ih2⟩ := ih (getClosestKart_step Real.sqrt m_owner t out k)
      (step_minDist_le m_owner t out k h)
    rw [List.foldl_cons]
    by_cases hsel : some k.addr ≠ m_owner
        ∧ (k.trans.origin.sub t.origin).length2 < out.minDist
    · have hstep : getClosestKart_step Real.sqrt m_owner t out k
          = { minKart := some k.addr,
              minDist := Real.sqrt (k.trans.origin.sub t.origin).length2,
              minDelta := k.trans.origin.sub t.origin } := by
        unfold getClosestKart_step
        rw [if_neg hsel.1, if_pos hsel.2]
      refine ⟨fun hf => ?_, fun _ => ?_⟩
      · simp [selectsSome, hsel.1, hsel.2] at hf
      · cases hrest : selectsSome Real.sqrt m_owner t
            (getClosestKart_step Real.sqrt m_owner t out k) ks with
        | false =>
          rw [ih1 hrest, hstep]
          exact ⟨k, List.mem_cons_self k ks, hsel.1, rfl, rfl, rfl,
            sqrt_lt_sentinel _ (lt_of_lt_of_le hsel.2 h)⟩
        | true =>
          obtain ⟨k2, hk2, hrest2⟩ := ih2 hrest
          exact ⟨k2, List.mem_cons_of_mem k hk2, hrest2⟩
    · have hstep : getClosestKart_step Real.sqrt m_owner t out k = out := by
        unfold getClosestKart_step
        by_cases ho : some k.addr = m_owner
        · rw [if_pos ho]
        · rw [if_neg ho, if_neg (fun hlt => hsel ⟨ho, hlt⟩)]
      have hs : selectsSome Real.sqrt m_owner t out (k :: ks)
          = selectsSome Real.sqrt m_owner t out ks := by
        simp only [selectsSome, hstep]
        have : (decide (some k.addr ≠ m_owner)
            && decide ((k.trans.origin.sub t.origin).length2 < out.minDist)) = false := by
          simpa using hsel
        rw [this, Bool.false_or]
      rw [hstep] at ih1 ih2
      rw [hs, hstep]
      refine ⟨ih1, fun ht => ?_⟩
      obtain ⟨k2, hk2, hrest2⟩ := ih2 ht
      exact ⟨k2, List.mem_cons_of_mem k hk2, hrest2⟩

end Flyable
end STK

namespace STK
namespace Flyable

/-! ## C16: distances 5, 2 and 8 -/

/-- C16.  Over the reals with the real square root: when the karts of the
world other than the owner are, in scan order, `k1`, `k2`, `k3` at Euclidean
distances `5`, `2` and `8` from the projectile (the owner may stand anywhere
in the list), `getClosestKart` returns `k2`, `minDist = 2` and `minDelta` the
position of `k2` minus the position of the projectile. -/
theorem getClosestKart_distances_5_2_8 (w : World ℝ) (s : Flyable ℝ) (out : Closest ℝ)
    (b : Body ℝ) (k1 k2 k3 : Kart ℝ) (hb : s.m_body = some b)
    (hscan : w.karts.filter (fun k => decide (some k.addr ≠ s.m_owner)) = [k1, k2, k3])
    (h1 : Real.sqrt (k1.trans.origin.sub b.worldTrans.origin).length2 = 5)
    (h2 : Real.sqrt (k2.trans.origin.sub b.worldTrans.origin).length2 = 2)
    (h3 : Real.sqrt (k3.trans.origin.sub b.worldTrans.origin).length2 = 8) :
    getClosestKart Real.sqrt w s out
      = some { minKart := some k2.addr, minDist := 2,
               minDelta := k2.trans.origin.sub b.worldTrans.origin } := by
  have hmem : ∀ k ∈ [k1, k2, k3], some k.addr ≠ s.m_owner := by
    intro k hk
    rw [← hscan] at hk
    simpa using (List.mem_filter.mp hk).2
  have hk1 := hmem k1 (by simp)
  have hk2 := hmem k2 (by simp)
  have hk3 := hmem k3 (by simp)
  have e1 : (k1.trans.origin.sub b.worldTrans.origin).length2 = 25 := by
    have := (Real.sqrt_eq_iff_mul_self_eq_of_pos (by norm_num : (0 : ℝ) < 5)).mp h1
    rw [← this]; norm_num
  have e2 : (k2.trans.origin.sub b.worldTrans.origin).length2 = 4 := by
    have := (Real.sqrt_eq_iff_mul_self_eq_of_pos (by norm_num : (0 : ℝ) < 2)).mp h2
    rw [← this]; norm_num
  have e3 : (k3.trans.origin.sub b.worldTrans.origin).length2 = 64 := by
    have := (Real.sqrt_eq_iff_mul_self_eq_of_pos (by norm_num : (0 : ℝ) < 8)).mp h3
    rw [← this]; norm_num
  have s1 : getClosestKart_step Real.sqrt s.m_owner b.worldTrans
      { out with minDist := 99999.9 } k1
      = { minKart := some k1.addr, minDist := 5,
          minDelta := k1.trans.origin.sub b.worldTrans.origin } := by
    unfold getClosestKart_step
    rw [if_neg hk1, if_pos (by rw [e1]; norm_num), h1]
  have s2 : getClosestKart_step Real.sqrt s.m_owner b.worldTrans
      { minKart := some k1.addr, minDist := 5,
        minDelta := k1.trans.origin.sub b.worldTrans.origin } k2
      = { minKart := some k2.addr, minDist := 2,
          minDelta := k2.trans.origin.sub b.worldTrans.origin } := by
    unfold getClosestKart_step
    rw [if_neg hk2, if_pos (by rw [e2]; norm_num), h2]
  have s3 : getClosestKart_step Real.sqrt s.m_owner b.worldTrans
      { minKart := some k2.addr, minDist := 2,
        minDelta := k2.trans.origin.sub b.worldTrans.origin } k3
      = { minKart := some k2.addr, minDist := 2,
          minDelta := k2.trans.origin.sub b.worldTrans.origin } := by
    unfold getClosestKart_step
    rw [if_neg hk3, if_neg (by rw [e3]; norm_num)]
  rw [getClosestKart_of_body Real.sqrt w s out b hb, foldl_step_filter, hscan,
    List.foldl_cons, s1, List.foldl_cons, s2, List.foldl_cons, s3, List.foldl_nil]

/-- C16 at a concrete input: the projectile at the origin, the owner `0` first
in the list, then karts at `(5,0,0)`, `(0,2,0)` and `(0,0,8)`. -/
theorem getClosestKart_distances_5_2_8_witness :
    getClosestKart Real.sqrt
        (World.ofList [(0, ⟨1, 1, 0⟩), (1, ⟨5, 0, 0⟩), (2, ⟨0, 2, 0⟩), (3, ⟨0, 0, 8⟩)])
        (Flyable.inFlight (some 0) ⟨0, 0, 0⟩ 3 1) ⟨none, 0, Vec3.zero⟩
      = some { minKart := some 2, minDist := 2,
               minDelta := Vec3.sub (⟨0, 2, 0⟩ : Vec3 ℝ) ⟨0, 0, 0⟩ } :=
  getClosestKart_distances_5_2_8
    (World.ofList [(0, ⟨1, 1, 0⟩), (1, ⟨5, 0, 0⟩), (2, ⟨0, 2, 0⟩), (3, ⟨0, 0, 8⟩)])
    (Flyable.inFlight (some 0) ⟨0, 0, 0⟩ 3 1) ⟨none, 0, Vec3.zero⟩
    { worldTrans := Transform.translation ⟨0, 0, 0⟩, mass := 1, shape := 0,
      gravity := some Vec3.zero, linearVelocity := Vec3.zero, angularFactor := 0,
      noContactResponse := true }
    ⟨1, Transform.translation ⟨5, 0, 0⟩⟩ ⟨2, Transform.translation ⟨0, 2, 0⟩⟩
    ⟨3, Transform.translation ⟨0, 0, 8⟩⟩ rfl
    (by simp [World.ofList, Flyable.inFlight])
    (by
      rw [Real.sqrt_eq_iff_mul_self_eq_of_pos (by norm_num)]
      norm_num [Transform.translation, Vec3.sub, Vec3.length2, Vec3.dot])
    (by
      rw [Real.sqrt_eq_iff_mul_self_eq_of_pos (by norm_num)]
      norm_num [Transform.translation, Vec3.sub, Vec3.length2, Vec3.dot])
    (by
      rw [Real.sqrt_eq_iff_mul_self_eq_of_pos (by norm_num)]
      norm_num [Transform.translation, Vec3.sub, Vec3.length2, Vec3.dot])

/-! ## C18: the three outputs describe one kart -/

/-- C18.  Over the reals with the real square root, for a projectile with a
body: `getClosestKart` returns, and if its scan takes the branch of line 175
for some kart, then there is a kart `k` of the world, not the owner, with
`minKart = k`, `minDelta` the position of `k` minus the position of the
projectile, `minDist` the square root of the squared length of `minDelta`, and
`minDist < 99999.9`. -/
theorem getClosestKart_outputs_consistent (w : World ℝ) (s : Flyable ℝ) (out : Closest ℝ)
    (b : Body ℝ) (hb : s.m_body = some b)
    (hsel : selectsSome Real.sqrt s.m_owner b.worldTrans
      { out with minDist := 99999.9 } w.karts = true) :
    ∃ r, getClosestKart Real.sqrt w s out = some r
      ∧ ∃ k ∈ w.karts, some k.addr ≠ s.m_owner
          ∧ r.minKart = some k.addr
          ∧ r.minDelta = k.trans.origin.sub b.worldTrans.origin
          ∧ r.minDist = Real.sqrt r.minDelta.length2
          ∧ r.minDist < 99999.9 := by
  refine ⟨_, getClosestKart_of_body Real.sqrt w s out b hb, ?_⟩
  obtain ⟨k, hk, ho, hkart, hdelta, hdist, hlt⟩ :=
    (scan_consistent s.m_owner b.worldTrans w.karts { out with minDist := 99999.9 }
      (le_refl _)).2 hsel
  exact ⟨k, hk, ho, hkart, hdelta, by rw [hdist, hdelta], hlt⟩

/-- C18 at a concrete input: the projectile at the origin, the owner `0`, then
karts at `(5,0,0)` and `(3,0,0)`; the scan selects a kart. -/
theorem getClosestKart_outputs_consistent_witness :
    selectsSome Real.sqrt (some 0) (Transform.translation ⟨0, 0, 0⟩)
        { minKart := none, minDist := 99999.9, minDelta := Vec3.zero }
        (World.ofList [(0, ⟨1, 1, 0⟩), (1, ⟨5, 0, 0⟩), (2, ⟨3, 0, 0⟩)]).karts = true
    ∧ ∃ r, getClosestKart Real.sqrt
          (World.ofList [(0, ⟨1, 1, 0⟩), (1, ⟨5, 0, 0⟩), (2, ⟨3, 0, 0⟩)])
          (Flyable.inFlight (some 0) ⟨0, 0, 0⟩ 3 1) ⟨none, 0, Vec3.zero⟩ = some r
        ∧ ∃ k ∈ (World.ofList [(0, (⟨1, 1, 0⟩ : Vec3 ℝ)), (1, ⟨5, 0, 0⟩),
              (2, ⟨3, 0, 0⟩)]).karts,
            some k.addr ≠ (some 0 : KartPtr)
            ∧ r.minKart = some k.addr
            ∧ r.minDelta = k.trans.origin.sub (⟨0, 0, 0⟩ : Vec3 ℝ)
            ∧ r.minDist = Real.sqrt r.minDelta.length2
            ∧ r.minDist < 99999.9 :=
  have hsel : selectsSome Real.sqrt (some 0) (Transform.translation ⟨0, 0, 0⟩)
      { minKart := none, minDist := 99999.9, minDelta := Vec3.zero }
      (World.ofList [(0, ⟨1, 1, 0⟩), (1, ⟨5, 0, 0⟩), (2, ⟨3, 0, 0⟩)]).karts = true := by
    simp [selectsSome, World.ofList, getClosestKart_step, Transform.translation, Vec3.sub,
      Vec3.length2, Vec3.dot]
    norm_num
  ⟨hsel,
   getClosestKart_outputs_consistent
     (World.ofList [(0, ⟨1, 1, 0⟩), (1, ⟨5, 0, 0⟩), (2, ⟨3, 0, 0⟩)])
     (Flyable.inFlight (some 0) ⟨0, 0, 0⟩ 3 1) ⟨none, 0, Vec3.zero⟩
     { worldTrans := Transform.translation ⟨0, 0, 0⟩, mass := 1, shape := 0,
       gravity := some Vec3.zero, linearVelocity := Vec3.zero, angularFactor := 0,
       noContactResponse := true }
     rfl hsel⟩

/-! ## C19: karts beyond the sentinel -/

/-- C19.  Over the reals with the real square root, for a projectile with a
body: at a kart whose squared distance to the projectile is at least
`99999.9` the scan of `getClosestKart` leaves the three outputs as they are,
wherever the kart stands in the list; and when every kart other than the
owner is that far, `getClosestKart` returns `minDist = 99999.9` with
`minKart` and `minDelta` as passed in. -/
theorem getClosestKart_ignores_far_karts (w : World ℝ) (s : Flyable ℝ) (out : Closest ℝ)
    (b : Body ℝ) (hb : s.m_body = some b) :
    (∀ (pre post : List (Kart ℝ)) (k : Kart ℝ), w.karts = pre ++ k :: post →
      99999.9 ≤ (k.trans.origin.sub b.worldTrans.origin).length2 →
      getClosestKart_step Real.sqrt s.m_owner b.worldTrans
          (pre.foldl (getClosestKart_step Real.sqrt s.m_owner b.worldTrans)
            { out with minDist := 99999.9 }) k
        = pre.foldl (getClosestKart_step Real.sqrt s.m_owner b.worldTrans)
            { out with minDist := 99999.9 })
    ∧ ((∀ k ∈ w.karts, some k.addr ≠ s.m_owner →
          99999.9 ≤ (k.trans.origin.sub b.worldTrans.origin).length2) →
        getClosestKart Real.sqrt w s out
          = some { minKart := out.minKart, minDist := 99999.9, minDelta := out.minDelta }) := by
  have hfar : ∀ (o : Closest ℝ) (k : Kart ℝ), o.minDist ≤ 99999.9 →
      (some k.addr ≠ s.m_owner →
        99999.9 ≤ (k.trans.origin.sub b.worldTrans.origin).length2) →
      getClosestKart_step Real.sqrt s.m_owner b.worldTrans o k = o := by
    intro o k ho hk
    unfold getClosestKart_step
    by_cases h1 : some k.addr = s.m_owner
    · rw [if_pos h1]
    · rw [if_neg h1]
      have h2 : ¬ ((k.trans.origin.sub b.worldTrans.origin).length2 < o.minDist) :=
        not_lt.mpr (le_trans ho (hk h1))
      simp only [h2, if_false]
  constructor
  · intro pre post k _ hk
    exact hfar _ k
      (foldl_step_minDist_le s.m_owner b.worldTrans pre { out with minDist := 99999.9 }
        (le_refl _))
      (fun _ => hk)
  · intro hall
    rw [getClosestKart_of_body Real.sqrt w s out b hb]
    have hfold : ∀ (karts : List (Kart ℝ)) (o : Closest ℝ), o.minDist ≤ 99999.9 →
        (∀ k ∈ karts, some k.addr ≠ s.m_owner →
          99999.9 ≤ (k.trans.origin.sub b.worldTrans.origin).length2) →
        karts.foldl (getClosestKart_step Real.sqrt s.m_owner b.worldTrans) o = o := by
      intro karts
      induction karts with
      | nil => intro o _ _; rfl
      | cons k ks ih =>
        intro o ho hks
        rw [List.foldl_cons, hfar o k ho (hks k (List.mem_cons_self k ks))]
        exact ih o ho (fun k1 hk1 => hks k1 (List.mem_cons_of_mem k hk1))
    rw [hfold w.karts _ (le_refl _) hall]

/-- C19 at a concrete input: the projectile at the origin, the owner `0` and
one other kart at `(400,0,0)`, squared distance `160000`; the caller passes
in kart `9`, distance `4` and delta `(1,2,3)`. -/
theorem getClosestKart_ignores_far_karts_witness :
    (Flyable.inFlight (some 0) (⟨0, 0, 0⟩ : Vec3 ℝ) 3 1).m_body
      = some { worldTrans := Transform.translation ⟨0, 0, 0⟩, mass := 1, shape := 0,
               gravity := some Vec3.zero, linearVelocity := Vec3.zero, angularFactor := 0,
               noContactResponse := true }
    ∧ getClosestKart Real.sqrt (World.ofList [(0, ⟨1, 1, 0⟩), (1, ⟨400, 0, 0⟩)])
        (Flyable.inFlight (some 0) ⟨0, 0, 0⟩ 3 1) ⟨some 9, 4, ⟨1, 2, 3⟩⟩
      = some { minKart := some 9, minDist := 99999.9, minDelta := ⟨1, 2, 3⟩ } :=
  ⟨rfl,
   (getClosestKart_ignores_far_karts (World.ofList [(0, ⟨1, 1, 0⟩), (1, ⟨400, 0, 0⟩)])
      (Flyable.inFlight (some 0) ⟨0, 0, 0⟩ 3 1) ⟨some 9, 4, ⟨1, 2, 3⟩⟩
      { worldTrans := Transform.translation ⟨0, 0, 0⟩, mass := 1, shape := 0,
        gravity := some Vec3.zero, linearVelocity := Vec3.zero, angularFactor := 0,
        noContactResponse := true }
      rfl).2
     (by
       intro k hk hne
       simp only [World.ofList, List.map, List.mem_cons, List.mem_singleton,
         List.not_mem_nil, or_false] at hk
       rcases hk with rfl | rfl
       · exact absurd rfl hne
       · norm_num [Transform.translation, Vec3.sub, Vec3.length2, Vec3.dot])⟩

end Flyable
end STK
